import Mathlib

/-!
Shallow embedding of the bewiser metrics/analytics engine.

Sources embedded:
* `app/services/metrics_service.py` — series statistics (volatility, sharpe,
  max drawdown, windowed/full CAGR, windowed absolute return);
* `app/services/benchmark_service.py` — the benchmark comparator
  (`calculate_benchmark_metrics`: alignment, beta, period outperformance),
  the risk-adjusted slice (`calculate_risk_adjusted_metrics`: beta/treynor),
  and the recommendation scorer (`get_benchmark_recommendation`);
* `app/services/fund_analysis_service.py` — the two ranking sorts and the
  sharpe-input policy.

Modelling conventions:
* A pandas NAV frame is a `NavSeries`: a list of `(date, nav)` pairs.  Dates
  are rationals measured in days (pandas timestamps have sub-day resolution,
  so a date may be fractional); `Timedelta.days` is `Int.floor` of the
  difference.  NAVs are rationals (every float is a rational); computations
  that genuinely need real arithmetic (`**` with fractional exponent, square
  roots) are `ℝ`-valued, with rationals cast in.
* Python `round(x, nd)` rounds half to even; `rheZ`/`rheR` model this.
* A Python metrics dict is a `Bag`: an association list from string keys to
  `Option ℚ` (`none` models a key bound to Python `None`).  Comparing `None`
  with a number raises `TypeError`; `pyGT` returns `Except PyErr Bool`
  accordingly, and the scorer is written in the `Except` monad.
* `np.cov(..)[0,1]` is the sample covariance (ddof = 1); `np.var` is the
  population variance (ddof = 0); pandas `.std()` is the sample standard
  deviation (ddof = 1).
* The seeded synthetic-benchmark generator in the approximate-alignment
  fallback of `calculate_benchmark_metrics` draws from `np.random` (Mersenne
  Twister, seed 42); its exact float stream is not reproduced here.  All
  definitions that can reach that path take the generated value list as an
  explicit parameter `synth : ℕ → List ℚ` (the code generates
  `len(fund_df)` values), and theorems quantify over it.
* `list.sort(key=.., reverse=True)` in CPython is a stable descending sort;
  it is modelled by `List.insertionSort` with the reversed lexicographic
  comparison, the canonical stable sort.
-/

/-- A NAV time series: `(date, nav)` rows, as produced by the data layer. -/
abbrev NavSeries := List (ℚ × ℚ)

/-- Modelled from the spec: `app/config/settings.py` is not under `src/`;
the spec fixes the annualized risk-free rate default to 0.07. -/
def RISK_FREE_RATE : ℚ := 7/100

/-- Modelled from the spec: `app/config/settings.py` is not under `src/`;
the spec fixes trading periods per year to 252. -/
def TRADING_DAYS : ℚ := 252

/-- 365.25, the days-per-year constant used throughout the source. -/
def DAYS_PER_YEAR : ℚ := 1461/4

/-- Python `int(q)`: truncation toward zero. -/
def pyInt (q : ℚ) : ℤ := if 0 ≤ q then ⌊q⌋ else ⌈q⌉

/-- Round half to even (Python `round` on an integer scale). -/
def rheZ (q : ℚ) : ℤ :=
  if q - ⌊q⌋ < 1/2 then ⌊q⌋
  else if 1/2 < q - ⌊q⌋ then ⌊q⌋ + 1
  else if Even ⌊q⌋ then ⌊q⌋ else ⌊q⌋ + 1

/-- Python `round(q, nd)` on rationals. -/
def roundQ (nd : ℕ) (q : ℚ) : ℚ := (rheZ (q * 10 ^ nd) : ℚ) / 10 ^ nd

open Classical in
/-- Round half to even on reals (Python `round` on an integer scale). -/
noncomputable def rheR (x : ℝ) : ℤ :=
  if x - ⌊x⌋ < 1/2 then ⌊x⌋
  else if 1/2 < x - ⌊x⌋ then ⌊x⌋ + 1
  else if Even ⌊x⌋ then ⌊x⌋ else ⌊x⌋ + 1

/-- Python `round(x, 2)` on reals. -/
noncomputable def round2R (x : ℝ) : ℝ := (rheR (x * 100) : ℝ) / 100

/-- `series.pct_change().dropna()`: consecutive periodic returns. -/
def pctChange (navs : List ℚ) : List ℚ :=
  List.zipWith (fun a b => b / a - 1) navs navs.tail

/-- Mean of a rational list (`np.mean` / pandas `.mean()`). -/
def meanQ (l : List ℚ) : ℚ := l.sum / l.length

/-- `np.cov(x, y)[0, 1]`: sample covariance (ddof = 1). -/
def sampleCov (x y : List ℚ) : ℚ :=
  (List.zipWith (fun a b => (a - meanQ x) * (b - meanQ y)) x y).sum / ((x.length : ℚ) - 1)

/-- `np.var(y)`: population variance (ddof = 0). -/
def popVar (y : List ℚ) : ℚ :=
  (y.map (fun b => (b - meanQ y) ^ 2)).sum / (y.length : ℚ)

/-- Mean of a real list. -/
noncomputable def meanR (l : List ℝ) : ℝ := l.sum / l.length

/-- Sample variance (ddof = 1), as pandas `.std()` squares it. -/
noncomputable def sampleVarR (l : List ℝ) : ℝ :=
  (l.map (fun x => (x - meanR l) ^ 2)).sum / ((l.length : ℝ) - 1)

/-- Pandas `.std()`: sample standard deviation. -/
noncomputable def sampleStdR (l : List ℝ) : ℝ := Real.sqrt (sampleVarR l)

/-- `_annualize_vol`: `daily_returns.std() * np.sqrt(TRADING_DAYS)`. -/
noncomputable def annualize_vol (daily_returns : List ℝ) : ℝ :=
  sampleStdR daily_returns * Real.sqrt (TRADING_DAYS : ℝ)

/-- `calculate_volatility` from `metrics_service.py`. -/
noncomputable def calculate_volatility (df : NavSeries) : Option ℝ :=
  if df.length < 2 then none
  else
    let ret := pctChange (df.map Prod.snd)
    if ret = [] then none
    else some (annualize_vol (ret.map (fun q => (q : ℝ))))

open Classical in
/-- `calculate_sharpe` from `metrics_service.py`. -/
noncomputable def calculate_sharpe (cagr volatility : Option ℝ) : Option ℝ :=
  match cagr, volatility with
  | some c, some v => if v = 0 then none else some ((c - (RISK_FREE_RATE : ℝ)) / v)
  | _, _ => none

/-- Running maximum of a list continuing from accumulator `m`. -/
def cummaxFrom (m : ℚ) : List ℚ → List ℚ
  | [] => []
  | x :: xs => max m x :: cummaxFrom (max m x) xs

/-- Pandas `.cummax()`. -/
def cummax : List ℚ → List ℚ
  | [] => []
  | x :: xs => x :: cummaxFrom x xs

/-- Pandas `.min()` on a series (none on the empty series). -/
def listMin : List ℚ → Option ℚ
  | [] => none
  | x :: xs => some (xs.foldl min x)

/-- `calculate_max_drawdown` from `metrics_service.py`. -/
def calculate_max_drawdown (df : NavSeries) : Option ℚ :=
  if df = [] then none
  else
    let navs := df.map Prod.snd
    listMin (List.zipWith (fun n m => n / m - 1) navs (cummax navs))

/-- Maximum of a rational list with junk value on `[]` (uses guarded). -/
def maxQl : List ℚ → ℚ
  | [] => 0
  | d :: t => t.foldl max d

/-- Minimum of a rational list with junk value on `[]` (uses guarded). -/
def minQl : List ℚ → ℚ
  | [] => 0
  | d :: t => t.foldl min d

/-- `df['date'].max()`. -/
def maxDate (df : NavSeries) : ℚ := maxQl (df.map Prod.fst)

/-- `df['date'].min()`. -/
def minDate (df : NavSeries) : ℚ := minQl (df.map Prod.fst)

/-- `(end/start)**(1/n_years) - 1`, the CAGR core. -/
noncomputable def cagrOf (start_value end_value : ℚ) (n_years : ℚ) : ℝ :=
  ((end_value : ℝ) / (start_value : ℝ)) ^ (((1 : ℚ) / n_years : ℚ) : ℝ) - 1

/-- `full_period_cagr` from `metrics_service.py`. -/
noncomputable def full_period_cagr (df : NavSeries) : Option ℝ :=
  if df.length < 2 then none
  else
    let n_years : ℚ := (⌊df.getLastI.1 - df.headI.1⌋ : ℚ) / DAYS_PER_YEAR
    if n_years ≤ 0 then none
    else some (cagrOf df.headI.2 df.getLastI.2 n_years)

/-- `cagr_for_window` from `metrics_service.py`. -/
noncomputable def cagr_for_window (df : NavSeries) (years : ℚ) : Option ℝ :=
  if df = [] then none
  else
    let start_cutoff := maxDate df - (pyInt (DAYS_PER_YEAR * years) : ℚ)
    let window := df.filter (fun r => decide (start_cutoff ≤ r.1))
    if window.length < 2 then none
    else
      let n_years : ℚ := (⌊window.getLastI.1 - window.headI.1⌋ : ℚ) / DAYS_PER_YEAR
      if n_years ≤ 0 then none
      else some (cagrOf window.headI.2 window.getLastI.2 n_years)

/-- `absolute_return_for_window` from `metrics_service.py`. -/
def absolute_return_for_window (df : NavSeries) (days : ℤ) : Option ℚ :=
  if df = [] ∨ days ≤ 0 then none
  else
    let start_cutoff := maxDate df - (days : ℚ)
    let window := df.filter (fun r => decide (start_cutoff ≤ r.1))
    if window.length < 2 then none
    else some (window.getLastI.2 / window.headI.2 - 1)

/-- The CAGR handed to `calculate_sharpe` by both pipelines:
`cagr_3y if cagr_3y is not None else cagr_all` (`fund_analysis_service.py`). -/
noncomputable def sharpeInput (df : NavSeries) : Option ℝ :=
  match cagr_for_window df 3 with
  | some c => some c
  | none => full_period_cagr df

/-- The sharpe computation of the analysis pipelines. -/
noncomputable def pipelineSharpe (df : NavSeries) : Option ℝ :=
  calculate_sharpe (sharpeInput df) (calculate_volatility df)

/-- One row of an aligned fund/benchmark table
(`merged` with columns `date`, `nav_fund`, `nav_bench`). -/
structure Row where
  date : ℚ
  nav_fund : ℚ
  nav_bench : ℚ
deriving DecidableEq, Inhabited

/-- `pd.merge(f, b, on='date', how='inner')` for frames with unique, sorted
dates: each left row is paired with the first right row of equal date,
preserving left order. -/
def innerJoin (f b : NavSeries) : List Row :=
  f.filterMap (fun r =>
    (b.find? (fun s => decide (s.1 = r.1))).map (fun s => ⟨r.1, r.2, s.2⟩))

/-- The common-window filtered pair of `calculate_benchmark_metrics`:
both frames restricted to `[max(minA,minB), min(maxA,maxB)]`. -/
def commonFiltered (fund bench : NavSeries) : NavSeries × NavSeries :=
  let common_start := max (minDate fund) (minDate bench)
  let common_end := min (maxDate fund) (maxDate bench)
  (fund.filter (fun r => decide (common_start ≤ r.1) && decide (r.1 ≤ common_end)),
   bench.filter (fun r => decide (common_start ≤ r.1) && decide (r.1 ≤ common_end)))

/-- The approximate-alignment fallback table: the fund's own dates and navs
paired with synthesized benchmark values. -/
def fallbackTable (fund : NavSeries) (synthVals : List ℚ) : List Row :=
  List.zipWith (fun (r : ℚ × ℚ) v => ⟨r.1, r.2, v⟩) fund synthVals

/-- The alignment step of `calculate_benchmark_metrics`: `none` models the
early `return {}` paths.  `synth n` stands for the `n` benchmark values the
seeded `np.random` generator produces in the fallback branch. -/
def alignedTable (synth : ℕ → List ℚ) (fund bench : NavSeries) : Option (List Row) :=
  if fund = [] ∨ bench = [] then none
  else
    let fund_filtered := (commonFiltered fund bench).1
    let bench_filtered := (commonFiltered fund bench).2
    if fund_filtered.length < 10 ∨ bench_filtered.length < 10 then
      if 2 ≤ fund.length then
        if 0 < ⌊fund.getLastI.1 - fund.headI.1⌋ then
          some (fallbackTable fund (synth fund.length))
        else none
      else none
    else some (innerJoin fund_filtered bench_filtered)

/-- The beta block shared verbatim by `calculate_benchmark_metrics` and
`calculate_risk_adjusted_metrics`: align the two return series on their
trailing min-length, then `np.cov(..)[0,1] / np.var(..)`, omitted unless the
benchmark variance is positive. -/
def betaOf (fund_returns bench_returns : List ℚ) : Option ℚ :=
  if fund_returns.length ≤ 1 ∨ bench_returns.length ≤ 1 then none
  else
    let n := min fund_returns.length bench_returns.length
    let x := fund_returns.drop (fund_returns.length - n)
    let y := bench_returns.drop (bench_returns.length - n)
    if 0 < popVar y then some (sampleCov x y / popVar y) else none

/-- The beta computed (or omitted) by `calculate_benchmark_metrics`,
including its early `return {}` guards. -/
def bmBeta (synth : ℕ → List ℚ) (fund bench : NavSeries) : Option ℚ :=
  match alignedTable synth fund bench with
  | none => none
  | some merged =>
    if merged.length < 2 then none
    else
      let fund_returns := pctChange (merged.map Row.nav_fund)
      let bench_returns := pctChange (merged.map Row.nav_bench)
      if fund_returns.length < 2 ∨ bench_returns.length < 2 then none
      else betaOf fund_returns bench_returns

/-- The period-outperformance computation of `calculate_benchmark_metrics`
for one period of `days` days, on an aligned table: last `days` rows, each
leg's CAGR with year count `days / 365.25`, difference as a rounded
percentage. -/
noncomputable def outperfFromTable (merged : List Row) (days : ℕ) : Option ℝ :=
  if days ≤ merged.length then
    let recent := merged.drop (merged.length - days)
    if 2 ≤ recent.length then
      if 0 < recent.headI.nav_fund ∧ 0 < recent.headI.nav_bench then
        let years : ℚ := (days : ℚ) / DAYS_PER_YEAR
        some (round2R (100 *
          (cagrOf recent.headI.nav_fund recent.getLastI.nav_fund years -
           cagrOf recent.headI.nav_bench recent.getLastI.nav_bench years)))
      else none
    else none
  else none

/-- Modelled from the spec: the same period-outperformance computation, but
with the year count taken as the claim states it — the sub-window's elapsed
days (last date minus first date of the last `days` rows) divided by 365.25.
Comparison definition for the refinement claim about `outperfFromTable`. -/
noncomputable def specOutperfFromTable (merged : List Row) (days : ℕ) : Option ℝ :=
  if days ≤ merged.length then
    let recent := merged.drop (merged.length - days)
    if 2 ≤ recent.length then
      if 0 < recent.headI.nav_fund ∧ 0 < recent.headI.nav_bench then
        let years : ℚ := (⌊recent.getLastI.date - recent.headI.date⌋ : ℚ) / DAYS_PER_YEAR
        some (round2R (100 *
          (cagrOf recent.headI.nav_fund recent.getLastI.nav_fund years -
           cagrOf recent.headI.nav_bench recent.getLastI.nav_bench years)))
      else none
    else none
  else none

/-- The `outperformance_{period}_pct` value (or absence) emitted by
`calculate_benchmark_metrics` for one period, with the function's early
`return {}` guards. -/
noncomputable def bmOutperf (synth : ℕ → List ℚ) (fund bench : NavSeries)
    (days : ℕ) : Option ℝ :=
  match alignedTable synth fund bench with
  | none => none
  | some merged =>
    if merged.length < 2 then none
    else
      let fund_returns := pctChange (merged.map Row.nav_fund)
      let bench_returns := pctChange (merged.map Row.nav_bench)
      if fund_returns.length < 2 ∨ bench_returns.length < 2 then none
      else outperfFromTable merged days

/-- Modelled from the spec: `bmOutperf` with the claim's year count
(`specOutperfFromTable`), for the refinement comparison. -/
noncomputable def specBmOutperf (synth : ℕ → List ℚ) (fund bench : NavSeries)
    (days : ℕ) : Option ℝ :=
  match alignedTable synth fund bench with
  | none => none
  | some merged =>
    if merged.length < 2 then none
    else
      let fund_returns := pctChange (merged.map Row.nav_fund)
      let bench_returns := pctChange (merged.map Row.nav_bench)
      if fund_returns.length < 2 ∨ bench_returns.length < 2 then none
      else specOutperfFromTable merged days

/-- The period table of `calculate_benchmark_metrics`. -/
def outperfPeriods : List (String × ℕ) :=
  [("1y", 365), ("2y", 730), ("3y", 1095), ("5y", 1825)]

/-- The beta computed (or omitted) by `calculate_risk_adjusted_metrics`:
plain inner join of the two frames (no common-window filter, no fallback),
then the shared beta block. -/
def raBeta (fund bench : NavSeries) : Option ℚ :=
  let merged := innerJoin fund bench
  if merged.length < 2 then none
  else
    let fund_returns := pctChange (merged.map Row.nav_fund)
    let bench_returns := pctChange (merged.map Row.nav_bench)
    if fund_returns.length ≤ 1 ∨ bench_returns.length ≤ 1 then none
    else betaOf fund_returns bench_returns

/-- The `treynor_ratio` value (or absence) of `calculate_risk_adjusted_metrics`:
`round((fund_mean_return - RISK_FREE_RATE) / beta, 3)`, only when the beta
block produced a nonzero beta. -/
def raTreynor (fund bench : NavSeries) : Option ℚ :=
  let merged := innerJoin fund bench
  if merged.length < 2 then none
  else
    let fund_returns := pctChange (merged.map Row.nav_fund)
    let bench_returns := pctChange (merged.map Row.nav_bench)
    if fund_returns.length ≤ 1 ∨ bench_returns.length ≤ 1 then none
    else
      match betaOf fund_returns bench_returns with
      | none => none
      | some beta =>
        if beta = 0 then none
        else some (roundQ 3 ((meanQ fund_returns * TRADING_DAYS - RISK_FREE_RATE) / beta))

/-- A Python runtime error raised by the scorer. -/
inductive PyErr where
  | typeError
deriving DecidableEq

/-- A value stored in a metrics dict: a number, or Python `None`. -/
abbrev PyVal := Option ℚ

/-- A Python metrics dict (`MetricsBag`): keys to optional numbers. -/
abbrev Bag := List (String × PyVal)

/-- Python `v > q` for a dict value `v`: `None > number` raises `TypeError`. -/
def pyGT (v : PyVal) (q : ℚ) : Except PyErr Bool :=
  match v with
  | some x => .ok (decide (q < x))
  | none => .error .typeError

/-- Rendering of a rational in a factor string (stands in for Python float
formatting; no theorem depends on the exact digits). -/
def ratStr (q : ℚ) : String := toString q.num ++ "/" ++ toString q.den

/-- Rendering of a dict value in a factor string. -/
def pyStr (v : PyVal) : String :=
  match v with
  | some q => ratStr q
  | none => "None"

/-- The alpha factor block of `get_benchmark_recommendation`. -/
def alphaFactor (metrics : Bag) : Except PyErr (ℤ × List String) :=
  match metrics.lookup "alpha_pct" with
  | none => .ok (0, [])
  | some alpha =>
    match pyGT alpha 3 with
    | .error e => .error e
    | .ok true => .ok (3, ["Strong alpha of " ++ pyStr alpha ++ "%"])
    | .ok false =>
      match pyGT alpha 0 with
      | .error e => .error e
      | .ok true => .ok (1, ["Positive alpha of " ++ pyStr alpha ++ "%"])
      | .ok false => .ok (-1, ["Negative alpha of " ++ pyStr alpha ++ "%"])

/-- The information-ratio factor block of `get_benchmark_recommendation`. -/
def irFactor (metrics : Bag) : Except PyErr (ℤ × List String) :=
  match metrics.lookup "information_ratio" with
  | none => .ok (0, [])
  | some ir =>
    match pyGT ir (1/2) with
    | .error e => .error e
    | .ok true => .ok (2, ["Excellent information ratio of " ++ pyStr ir])
    | .ok false =>
      match pyGT ir 0 with
      | .error e => .error e
      | .ok true => .ok (1, ["Positive information ratio of " ++ pyStr ir])
      | .ok false => .ok (-1, ["Poor information ratio of " ++ pyStr ir])

/-- The sharpe/treynor factor block of `get_benchmark_recommendation`
(Python `and` short-circuits, so `treynor > 0.1` is only evaluated when
`sharpe > 1` succeeded and returned true). -/
def sharpeTreynorFactor (metrics : Bag) : Except PyErr (ℤ × List String) :=
  match metrics.lookup "sharpe_ratio", metrics.lookup "treynor_ratio" with
  | some sharpe, some treynor =>
    match pyGT sharpe 1 with
    | .error e => .error e
    | .ok true =>
      match pyGT treynor (1/10) with
      | .error e => .error e
      | .ok true => .ok (2, ["Strong risk-adjusted returns"])
      | .ok false => .ok (0, [])
    | .ok false => .ok (0, [])
  | _, _ => .ok (0, [])

/-- Python `k.startswith(p)`, as a character-list comparison. -/
def strStartsWith (k p : String) : Bool :=
  decide (k.toList.take p.toList.length = p.toList)

/-- Python `k.endswith(p)`, as a character-list comparison. -/
def strEndsWith (k p : String) : Bool :=
  decide (k.toList.drop (k.toList.length - p.toList.length) = p.toList)

/-- Key selector for the consistency factor:
`k.startswith('outperformance_') and k.endswith('_pct')`. -/
def isOutperfKey (k : String) : Bool :=
  strStartsWith k "outperformance_" && strEndsWith k "_pct"

/-- `sum(1 for period in .. if metrics[period] > 0)`: counts the positive
entries, propagating a comparison `TypeError`. -/
def countPos : Bag → ℕ → Except PyErr ℕ
  | [], acc => .ok acc
  | kv :: t, acc =>
    match pyGT kv.2 0 with
    | .error e => .error e
    | .ok b => countPos t (if b then acc + 1 else acc)

/-- The consistency factor block of `get_benchmark_recommendation`. -/
def outperfFactor (metrics : Bag) : Except PyErr (ℤ × List String) :=
  let ops := metrics.filter (fun kv => isOutperfKey kv.1)
  match countPos ops 0 with
  | .error e => .error e
  | .ok pos =>
    if 0 < ops.length then
      let r : ℚ := (pos : ℚ) / (ops.length : ℚ)
      if 3/4 ≤ r then .ok (2, ["Consistent outperformance across periods"])
      else if 1/2 ≤ r then .ok (1, ["Generally outperforms benchmark"])
      else .ok (-1, ["Inconsistent benchmark performance"])
    else .ok (0, [])

/-- Score accumulation of `get_benchmark_recommendation`: the four factor
blocks in source order, summing score deltas and concatenating the
`recommendation_factors` strings. -/
def recCore (metrics : Bag) : Except PyErr (ℤ × List String) :=
  match alphaFactor metrics with
  | .error e => .error e
  | .ok a =>
    match irFactor metrics with
    | .error e => .error e
    | .ok i =>
      match sharpeTreynorFactor metrics with
      | .error e => .error e
      | .ok st =>
        match outperfFactor metrics with
        | .error e => .error e
        | .ok op => .ok (a.1 + i.1 + st.1 + op.1, a.2 ++ i.2 ++ st.2 ++ op.2)

/-- The label/reason ladder of `get_benchmark_recommendation`. -/
def recLabel (score : ℤ) : String × String :=
  if 5 ≤ score then
    ("STRONG BUY", "Excellent benchmark-relative performance with strong risk-adjusted returns")
  else if 3 ≤ score then
    ("BUY", "Good performance against benchmark with acceptable risk")
  else if 0 ≤ score then
    ("HOLD", "Mixed performance against benchmark, suitable for moderate risk investors")
  else
    ("AVOID", "Underperforms benchmark with poor risk-adjusted returns")

/-- `get_benchmark_recommendation` from `benchmark_service.py`. -/
def get_benchmark_recommendation (metrics : Bag) : Except PyErr String :=
  match recCore metrics with
  | .error e => .error e
  | .ok sf =>
    .ok ((recLabel sf.1).1 ++ ": " ++ (recLabel sf.1).2 ++ ". Key factors: " ++
      String.intercalate "; " (sf.2.take 3))

/-- A bag all of whose present entries hold numbers (no `None` values). -/
def NumericBag (metrics : Bag) : Prop := ∀ kv ∈ metrics, kv.2 ≠ none

/-- Modelled from the spec: the alpha row group of the scoring table. -/
def specAlphaScore (metrics : Bag) : ℤ :=
  match metrics.lookup "alpha_pct" with
  | some (some x) => if 3 < x then 3 else if 0 < x then 1 else -1
  | _ => 0

/-- Modelled from the spec: the information-ratio row group of the table. -/
def specIRScore (metrics : Bag) : ℤ :=
  match metrics.lookup "information_ratio" with
  | some (some x) => if 1/2 < x then 2 else if 0 < x then 1 else -1
  | _ => 0

/-- Modelled from the spec: the sharpe/treynor row of the table. -/
def specSTScore (metrics : Bag) : ℤ :=
  match metrics.lookup "sharpe_ratio", metrics.lookup "treynor_ratio" with
  | some (some s), some (some t) => if 1 < s ∧ 1/10 < t then 2 else 0
  | _, _ => 0

/-- Modelled from the spec: the outperformance-consistency rows of the
table, on the fraction of outperformance keys with positive values. -/
def specOutperfScore (metrics : Bag) : ℤ :=
  let ops := metrics.filter (fun kv => isOutperfKey kv.1)
  if ops.length = 0 then 0
  else
    let pos := (ops.filter (fun kv =>
      match kv.2 with
      | some x => decide (0 < x)
      | none => false)).length
    let r : ℚ := (pos : ℚ) / (ops.length : ℚ)
    if 3/4 ≤ r then 2 else if 1/2 ≤ r then 1 else -1

/-- Modelled from the spec: the additive score of the scoring table. -/
def specScore (metrics : Bag) : ℤ :=
  specAlphaScore metrics + specIRScore metrics + specSTScore metrics +
    specOutperfScore metrics

/-- Modelled from the spec: the label thresholds on the final score. -/
def specLabel (score : ℤ) : String :=
  if 5 ≤ score then "STRONG BUY"
  else if 3 ≤ score then "BUY"
  else if 0 ≤ score then "HOLD"
  else "AVOID"

/-- The scenario bag of the spec:
`{alpha_pct: 4, information_ratio: 0.6, outperformance_1y_pct: 2, outperformance_2y_pct: 3}`. -/
def exampleBag : Bag :=
  [("alpha_pct", some 4), ("information_ratio", some (3/5)),
   ("outperformance_1y_pct", some 2), ("outperformance_2y_pct", some 3)]

/-- One per-fund result record, restricted to the fields the two ranking
sorts read (`sharpe_ratio`, `cagr_3y_pct`, `alpha_pct`, `information_ratio`;
`none` models both a `None` value and an absent key). -/
structure FundRec where
  scheme_code : String
  sharpe : Option ℚ
  cagr3y : Option ℚ
  alpha : Option ℚ
  ir : Option ℚ
deriving DecidableEq

/-- The plain-mode sort key: `(sharpe_ratio, cagr_3y_pct)` with `None`
replaced by `-1e9`. -/
def plainKey (x : FundRec) : ℚ × ℚ :=
  (x.sharpe.getD (-1000000000), x.cagr3y.getD (-1000000000))

/-- The benchmark-mode sort key:
`(alpha_pct, information_ratio, sharpe_ratio)` with `-999` defaults. -/
def benchKey (x : FundRec) : ℚ × ℚ × ℚ :=
  (x.alpha.getD (-999), x.ir.getD (-999), x.sharpe.getD (-999))

/-- Python lexicographic `<=` on pairs. -/
abbrev lex2Le (p q : ℚ × ℚ) : Prop := p.1 < q.1 ∨ (p.1 = q.1 ∧ p.2 ≤ q.2)

/-- Python lexicographic `<=` on triples. -/
abbrev lex3Le (p q : ℚ × ℚ × ℚ) : Prop := p.1 < q.1 ∨ (p.1 = q.1 ∧ lex2Le p.2 q.2)

/-- "a precedes b" in the plain descending sort: key of `b` ≤ key of `a`. -/
abbrev plainDesc (a b : FundRec) : Prop := lex2Le (plainKey b) (plainKey a)

/-- "a precedes b" in the benchmark descending sort. -/
abbrev benchDesc (a b : FundRec) : Prop := lex3Le (benchKey b) (benchKey a)

/-- The plain-mode ranking sort of `analyze_funds`
(`results.sort(key=(sharpe, cagr3y), reverse=True)`, stable). -/
def sortPlain (results : List FundRec) : List FundRec :=
  results.insertionSort plainDesc

/-- The benchmark-mode ranking sort of `analyze_funds_with_benchmark`
(`results.sort(key=(alpha, ir, sharpe), reverse=True)`, stable). -/
def sortBench (results : List FundRec) : List FundRec :=
  results.insertionSort benchDesc

/-- The drawdown terms as the spec states them:
`nav[i] / running_max(nav[0..i]) - 1` for each index `i`. -/
def specDrawdownTerms (df : NavSeries) : List ℚ :=
  (List.range (df.map Prod.snd).length).map (fun i =>
    (df.map Prod.snd).getD i 0 / maxQl ((df.map Prod.snd).take (i + 1)) - 1)

/-- The spec's CAGR round-trip series: `nav0 = 100`, `nav1 = 100*(1+g)`,
dates exactly 365.25 days apart. -/
def c8Series (g : ℚ) : NavSeries := [(0, 100), (DAYS_PER_YEAR, 100 * (1 + g))]

/-- Fund navs of the period-outperformance counterexample input. -/
def f1yNav (i : ℕ) : ℚ := if i = 364 then 2 ^ 1460 else 1

/-- Fund series of the period-outperformance counterexample: 365 rows, one
every 2 days (so the 1y sub-window spans 728 elapsed days, not 365). -/
def fund1y : NavSeries := (List.range 365).map (fun (i : ℕ) => ((2 * (i : ℚ)), f1yNav i))

/-- Benchmark series of the period-outperformance counterexample: the same
365 dates, constant nav. -/
def bench1y : NavSeries := (List.range 365).map (fun (i : ℕ) => ((2 * (i : ℚ)), 1))

/-- Fund input of the beta-divergence counterexample: 12 rows, so the
comparator's common-window filter leaves fewer than 10 rows against a 5-row
benchmark and triggers the approximate-alignment fallback. -/
def fundC9 : NavSeries :=
  [(0, 1), (1, 2), (2, 1), (3, 2), (4, 1), (5, 1), (6, 1), (7, 1), (8, 1),
   (9, 1), (10, 1), (11, 1)]

/-- First benchmark of the beta-divergence counterexample (real beta 2). -/
def benchC9a : NavSeries := [(0, 1), (1, 2), (2, 2), (3, 4), (4, 4)]

/-- Second benchmark of the beta-divergence counterexample (real beta 0),
with the same dates as the first. -/
def benchC9b : NavSeries := [(0, 1), (1, 2), (2, 2), (3, 2), (4, 4)]

/-- A fund record with every ranking metric missing. -/
def recMissing : FundRec := ⟨"missing", none, none, none, none⟩

/-- A fund record whose sharpe is present but below the `-1e9` sentinel. -/
def recPresentLow : FundRec := ⟨"present", some (-2000000000), none, none, none⟩

/-- The merged-bag shape the benchmark pipeline can produce: `sharpe_ratio`
present with value `None`, `treynor_ratio` present with a number. -/
def noneSharpeBag : Bag := [("sharpe_ratio", none), ("treynor_ratio", some 1)]

theorem foldl_min_le_init (t : List ℚ) : ∀ x : ℚ, t.foldl min x ≤ x := by
  induction t with
  | nil => intro x; exact le_refl x
  | cons y t ih =>
    intro x
    exact le_trans (ih (min x y)) (min_le_left x y)

theorem foldl_max_init_le (t : List ℚ) : ∀ x : ℚ, x ≤ t.foldl max x := by
  induction t with
  | nil => intro x; exact le_refl x
  | cons y t ih =>
    intro x
    exact le_trans (le_max_left x y) (ih (max x y))

theorem foldl_min_le_mem (t : List ℚ) :
    ∀ x : ℚ, ∀ y ∈ t, t.foldl min x ≤ y := by
  induction t with
  | nil => intro x y hy; cases hy
  | cons z t ih =>
    intro x y hy
    rcases List.mem_cons.mp hy with h | h
    · subst h
      exact le_trans (foldl_min_le_init t (min x y)) (min_le_right x y)
    · exact ih (min x z) y h

theorem foldl_max_mem_le (t : List ℚ) :
    ∀ x : ℚ, ∀ y ∈ t, y ≤ t.foldl max x := by
  induction t with
  | nil => intro x y hy; cases hy
  | cons z t ih =>
    intro x y hy
    rcases List.mem_cons.mp hy with h | h
    · subst h
      exact le_trans (le_max_right x y) (foldl_max_init_le t (max x y))
    · exact ih (max x z) y h

theorem minQl_le_of_mem {l : List ℚ} {d : ℚ} (h : d ∈ l) : minQl l ≤ d := by
  cases l with
  | nil => cases h
  | cons x t =>
    rcases List.mem_cons.mp h with h' | h'
    · subst h'; exact foldl_min_le_init t d
    · exact foldl_min_le_mem t x d h'

theorem le_maxQl_of_mem {l : List ℚ} {d : ℚ} (h : d ∈ l) : d ≤ maxQl l := by
  cases l with
  | nil => cases h
  | cons x t =>
    rcases List.mem_cons.mp h with h' | h'
    · subst h'; exact foldl_max_init_le t d
    · exact foldl_max_mem_le t x d h'

theorem minDate_le_of_mem {df : NavSeries} {r : ℚ × ℚ} (h : r ∈ df) :
    minDate df ≤ r.1 :=
  minQl_le_of_mem (List.mem_map_of_mem Prod.fst h)

theorem le_maxDate_of_mem {df : NavSeries} {r : ℚ × ℚ} (h : r ∈ df) :
    r.1 ≤ maxDate df :=
  le_maxQl_of_mem (List.mem_map_of_mem Prod.fst h)

/-- C5: for every NavSeries with fewer than 2 rows, volatility, full-period
CAGR, windowed CAGR (any window), and windowed absolute return (any positive
day count) all return "no value". -/
theorem claim_C5 (df : NavSeries) (h : df.length < 2) :
    calculate_volatility df = none ∧
    full_period_cagr df = none ∧
    (∀ years : ℚ, cagr_for_window df years = none) ∧
    (∀ days : ℤ, 0 < days → absolute_return_for_window df days = none) := by
  refine ⟨?_, ?_, ?_, ?_⟩
  · simp only [calculate_volatility, if_pos h]
  · simp only [full_period_cagr, if_pos h]
  · intro years
    by_cases hdf : df = []
    · simp [cagr_for_window, hdf]
    · have hw : (df.filter (fun r =>
          decide (maxDate df - (pyInt (DAYS_PER_YEAR * years) : ℚ) ≤ r.1))).length < 2 :=
        lt_of_le_of_lt (List.length_filter_le _ _) h
      simp only [cagr_for_window, if_neg hdf, if_pos hw]
  · intro days hdays
    by_cases hdf : df = []
    · simp [absolute_return_for_window, hdf]
    · have hcond : ¬(df = [] ∨ days ≤ 0) := by
        push_neg
        exact ⟨hdf, hdays⟩
      have hw : (df.filter (fun r =>
          decide (maxDate df - (days : ℚ) ≤ r.1))).length < 2 :=
        lt_of_le_of_lt (List.length_filter_le _ _) h
      simp only [absolute_return_for_window, if_neg hcond, if_pos hw]

theorem claim_C5_witness :
    calculate_volatility [((0 : ℚ), (1 : ℚ))] = none ∧
    full_period_cagr [((0 : ℚ), (1 : ℚ))] = none ∧
    cagr_for_window [((0 : ℚ), (1 : ℚ))] 3 = none ∧
    absolute_return_for_window [((0 : ℚ), (1 : ℚ))] 365 = none := by
  have h := claim_C5 [((0 : ℚ), (1 : ℚ))] (by simp)
  exact ⟨h.1, h.2.1, h.2.2.1 3, h.2.2.2 365 (by norm_num)⟩

/-- C10: for every NavSeries and every day count `days ≤ 0`,
`absolute_return_for_window` returns "no value" rather than computing a
return over a degenerate window. -/
theorem claim_C10 (df : NavSeries) (days : ℤ) (h : days ≤ 0) :
    absolute_return_for_window df days = none := by
  simp only [absolute_return_for_window, if_pos (Or.inr h)]

theorem claim_C10_witness :
    absolute_return_for_window
      [((0 : ℚ), (1 : ℚ)), ((1 : ℚ), (2 : ℚ)), ((2 : ℚ), (3 : ℚ))] 0 = none :=
  claim_C10 _ 0 le_rfl

/-- C7: `calculate_sharpe` returns "no value" exactly when cagr is missing,
volatility is missing, or volatility is zero, and otherwise returns
`(cagr - riskFreeRate) / volatility` (so no division-by-zero fault is
reachable); the pipeline feeds it the 3-year windowed CAGR when available
and the full-period CAGR otherwise. -/
theorem claim_C7 :
    (∀ v, calculate_sharpe none v = none) ∧
    (∀ c, calculate_sharpe c none = none) ∧
    (∀ c : ℝ, calculate_sharpe (some c) (some 0) = none) ∧
    (∀ c v : ℝ, v ≠ 0 →
      calculate_sharpe (some c) (some v) = some ((c - (RISK_FREE_RATE : ℝ)) / v)) ∧
    (∀ df c, cagr_for_window df 3 = some c → sharpeInput df = some c) ∧
    (∀ df, cagr_for_window df 3 = none → sharpeInput df = full_period_cagr df) ∧
    (∀ df, pipelineSharpe df =
      calculate_sharpe (sharpeInput df) (calculate_volatility df)) := by
  refine ⟨?_, ?_, ?_, ?_, ?_, ?_, ?_⟩
  · intro v; cases v <;> rfl
  · intro c; cases c <;> rfl
  · intro c; simp [calculate_sharpe]
  · intro c v hv; simp [calculate_sharpe, hv]
  · intro df c h; simp only [sharpeInput, h]
  · intro df h; simp only [sharpeInput, h]
  · intro df; rfl

theorem claim_C7_witness :
    calculate_sharpe (some 1) (some 2) = some ((1 - (RISK_FREE_RATE : ℝ)) / 2) :=
  claim_C7.2.2.2.1 1 2 two_ne_zero

theorem zip_cummaxFrom_eq (xs : List ℚ) :
    ∀ m : ℚ, List.zipWith (fun n mm => n / mm - 1) xs (cummaxFrom m xs) =
      (List.range xs.length).map
        (fun i => xs.getD i 0 / maxQl (m :: xs.take (i + 1)) - 1) := by
  induction xs with
  | nil => intro m; rfl
  | cons y ys ih =>
    intro m
    have hrange : List.range (ys.length + 1) =
        0 :: (List.range ys.length).map Nat.succ := List.range_succ_eq_map ys.length
    have htail : List.zipWith (fun n mm => n / mm - 1) ys (cummaxFrom (max m y) ys) =
        List.map ((fun i => (y :: ys).getD i 0 /
          maxQl (m :: List.take (i + 1) (y :: ys)) - 1) ∘ Nat.succ)
          (List.range ys.length) := by
      rw [ih (max m y)]
      apply List.map_congr_left
      intro i _
      simp only [Function.comp_apply, List.getD_cons_succ, List.take_succ_cons]
      have hm : maxQl (m :: y :: ys.take (i + 1)) = maxQl (max m y :: ys.take (i + 1)) := by
        simp [maxQl, List.foldl_cons]
      rw [hm]
    simp only [cummaxFrom, List.zipWith_cons_cons, List.length_cons, hrange,
      List.map_cons, List.map_map]
    rw [htail]
    congr 1

theorem zip_cummax_eq (navs : List ℚ) :
    List.zipWith (fun n mm => n / mm - 1) navs (cummax navs) =
      (List.range navs.length).map
        (fun i => navs.getD i 0 / maxQl (navs.take (i + 1)) - 1) := by
  cases navs with
  | nil => rfl
  | cons x xs =>
    have hrange : List.range (xs.length + 1) =
        0 :: (List.range xs.length).map Nat.succ := List.range_succ_eq_map xs.length
    have htail : List.zipWith (fun n mm => n / mm - 1) xs (cummaxFrom x xs) =
        List.map ((fun i => (x :: xs).getD i 0 /
          maxQl (List.take (i + 1) (x :: xs)) - 1) ∘ Nat.succ)
          (List.range xs.length) := by
      rw [zip_cummaxFrom_eq xs x]
      apply List.map_congr_left
      intro i _
      simp only [Function.comp_apply, List.getD_cons_succ, List.take_succ_cons]
    simp only [cummax, List.zipWith_cons_cons, List.length_cons, hrange,
      List.map_cons, List.map_map]
    rw [htail]
    congr 1

theorem dd_nonpos (xs : List ℚ) :
    ∀ m : ℚ, 0 < m → (∀ x ∈ xs, 0 < x) →
      ∀ y ∈ List.zipWith (fun n mm => n / mm - 1) xs (cummaxFrom m xs), y ≤ 0 := by
  induction xs with
  | nil => intro m _ _ y hy; cases hy
  | cons x xs ih =>
    intro m hm hpos y hy
    have hx : 0 < x := hpos x (List.mem_cons_self x xs)
    have hmx : 0 < max m x := lt_of_lt_of_le hm (le_max_left m x)
    simp only [cummaxFrom, List.zipWith_cons_cons, List.mem_cons] at hy
    rcases hy with h | h
    · subst h
      have : x / max m x ≤ 1 := (div_le_one hmx).mpr (le_max_right m x)
      linarith
    · exact ih (max m x) hmx (fun z hz => hpos z (List.mem_cons_of_mem x hz)) y h

theorem chain_cummaxFrom (xs : List ℚ) :
    ∀ m : ℚ, List.Chain (· < ·) m xs → cummaxFrom m xs = xs := by
  induction xs with
  | nil => intro m _; rfl
  | cons y ys ih =>
    intro m hc
    rcases List.chain_cons.mp hc with ⟨hmy, hys⟩
    have : max m y = y := max_eq_right (le_of_lt hmy)
    simp only [cummaxFrom, this]
    rw [ih y hys]

theorem foldl_min_zero_of_all_zero (t : List ℚ) :
    (∀ y ∈ t, y = 0) → t.foldl min 0 = 0 := by
  induction t with
  | nil => intro _; rfl
  | cons z t ih =>
    intro h
    have hz : z = 0 := h z (List.mem_cons_self z t)
    simp only [List.foldl_cons, hz, min_self]
    exact ih (fun y hy => h y (List.mem_cons_of_mem z hy))

/-- C6: max drawdown is "no value" on the empty series, equals the minimum
of the `nav[i]/running_max(nav[0..i]) - 1` terms otherwise, is always ≤ 0
and keeps its sign; a strictly increasing NAV series gives exactly 0, and a
two-point series falling from `v0` to `v1 < v0` gives `v1/v0 - 1`. -/
theorem claim_C6 :
    calculate_max_drawdown ([] : NavSeries) = none ∧
    (∀ df : NavSeries, calculate_max_drawdown df =
      if df = [] then none else listMin (specDrawdownTerms df)) ∧
    (∀ (df : NavSeries) (v : ℚ), (∀ p ∈ df, 0 < p.2) →
      calculate_max_drawdown df = some v → v ≤ 0) ∧
    (∀ df : NavSeries, df ≠ [] → (∀ p ∈ df, 0 < p.2) →
      List.Chain' (fun p q : ℚ × ℚ => p.2 < q.2) df →
      calculate_max_drawdown df = some 0) ∧
    (∀ d0 d1 v0 v1 : ℚ, 0 < v1 → v1 < v0 →
      calculate_max_drawdown [(d0, v0), (d1, v1)] = some (v1 / v0 - 1)) := by
  refine ⟨rfl, ?_, ?_, ?_, ?_⟩
  · intro df
    by_cases hdf : df = []
    · simp [calculate_max_drawdown, hdf]
    · simp only [calculate_max_drawdown, if_neg hdf, specDrawdownTerms]
      rw [zip_cummax_eq]
  · intro df v hpos hv
    by_cases hdf : df = []
    · rw [hdf] at hv; cases hv
    · simp only [calculate_max_drawdown, if_neg hdf] at hv
      have hnavs : df.map Prod.snd ≠ [] := by
        simpa using hdf
      have hposn : ∀ x ∈ df.map Prod.snd, 0 < x := by
        intro x hx
        rcases List.mem_map.mp hx with ⟨p, hp, hpx⟩
        rw [← hpx]; exact hpos p hp
      cases hm : df.map Prod.snd with
      | nil => exact absurd hm hnavs
      | cons x xs =>
        rw [hm] at hv hposn
        have hx : 0 < x := hposn x (List.mem_cons_self x xs)
        simp only [cummax, List.zipWith_cons_cons, listMin] at hv
        have hhead : x / x - 1 ≤ 0 := by
          rw [div_self (ne_of_gt hx)]; norm_num
        have := foldl_min_le_init
          (List.zipWith (fun n mm => n / mm - 1) xs (cummaxFrom x xs)) (x / x - 1)
        have hv' : v = (List.zipWith (fun n mm => n / mm - 1) xs
            (cummaxFrom x xs)).foldl min (x / x - 1) := by
          exact (Option.some_injective _ hv).symm
        rw [hv']
        exact le_trans this hhead
  · intro df hdf hpos hchain
    have hnavs : df.map Prod.snd ≠ [] := by simpa using hdf
    have hposn : ∀ x ∈ df.map Prod.snd, 0 < x := by
      intro x hx
      rcases List.mem_map.mp hx with ⟨p, hp, hpx⟩
      rw [← hpx]; exact hpos p hp
    have hchainn : List.Chain' (· < ·) (df.map Prod.snd) :=
      List.chain'_map_of_chain' Prod.snd (fun a b hab => hab) hchain
    simp only [calculate_max_drawdown, if_neg hdf]
    cases hm : df.map Prod.snd with
    | nil => exact absurd hm hnavs
    | cons x xs =>
      rw [hm] at hposn hchainn
      have hx : 0 < x := hposn x (List.mem_cons_self x xs)
      have hchain2 : List.Chain (· < ·) x xs := hchainn
      simp only [cummax, List.zipWith_cons_cons, listMin]
      rw [chain_cummaxFrom xs x hchain2]
      have hzero : x / x - 1 = 0 := by rw [div_self (ne_of_gt hx)]; ring
      have hall : ∀ y ∈ List.zipWith (fun n mm => n / mm - 1) xs xs, y = 0 := by
        intro y hy
        rw [List.zipWith_same] at hy
        rcases List.mem_map.mp hy with ⟨z, hz, hzy⟩
        have : 0 < z := hposn z (List.mem_cons_of_mem x hz)
        rw [← hzy, div_self (ne_of_gt this)]; ring
      rw [hzero, foldl_min_zero_of_all_zero _ hall]
  · intro d0 d1 v0 v1 h1 h10
    have h0 : 0 < v0 := lt_trans h1 h10
    have hmax : max v0 v1 = v0 := max_eq_left (le_of_lt h10)
    simp only [calculate_max_drawdown, List.map_cons, List.map_nil, cummax,
      cummaxFrom, hmax, List.zipWith_cons_cons, List.zipWith_nil_right, listMin,
      List.foldl_cons, List.foldl_nil, if_neg (by simp : ¬((d0, v0) :: [(d1, v1)] = []))]
    have hz : v0 / v0 - 1 = 0 := by rw [div_self (ne_of_gt h0)]; ring
    have hle : v1 / v0 - 1 ≤ 0 := by
      have : v1 / v0 ≤ 1 := (div_le_one h0).mpr (le_of_lt h10)
      linarith
    rw [hz]
    rw [min_eq_right hle]

theorem claim_C6_witness :
    calculate_max_drawdown [((0 : ℚ), (2 : ℚ)), ((1 : ℚ), (1 : ℚ))] =
      some ((1 : ℚ) / 2 - 1) :=
  claim_C6.2.2.2.2 0 1 2 1 one_pos one_lt_two

theorem lookup_mem_bag :
    ∀ (m : Bag) (k : String) (v : PyVal), m.lookup k = some v → (k, v) ∈ m := by
  intro m
  induction m with
  | nil => intro k v h; cases h
  | cons kv t ih =>
    intro k v h
    by_cases hk : k = kv.1
    · subst hk
      have hb : (kv.1 == kv.1) = true := beq_self_eq_true kv.1
      simp only [List.lookup, hb] at h
      rw [← Option.some_inj.mp h]
      exact List.mem_cons_self kv t
    · have hne : (k == kv.1) = false := beq_false_of_ne hk
      simp only [List.lookup, hne] at h
      exact List.mem_cons_of_mem kv (ih k v h)

theorem alphaFactor_spec (m : Bag) (h : NumericBag m) :
    ∃ fs, alphaFactor m = .ok (specAlphaScore m, fs) := by
  cases hl : m.lookup "alpha_pct" with
  | none => exact ⟨[], by simp [alphaFactor, specAlphaScore, hl]⟩
  | some v =>
    cases v with
    | none => exact absurd rfl (h _ (lookup_mem_bag m _ _ hl))
    | some x =>
      by_cases h3 : (3 : ℚ) < x
      · exact ⟨["Strong alpha of " ++ pyStr (some x) ++ "%"],
          by simp [alphaFactor, specAlphaScore, hl, pyGT, h3]⟩
      · by_cases h0 : (0 : ℚ) < x
        · exact ⟨["Positive alpha of " ++ pyStr (some x) ++ "%"],
            by simp [alphaFactor, specAlphaScore, hl, pyGT, h3, h0]⟩
        · exact ⟨["Negative alpha of " ++ pyStr (some x) ++ "%"],
            by simp [alphaFactor, specAlphaScore, hl, pyGT, h3, h0]⟩

theorem irFactor_spec (m : Bag) (h : NumericBag m) :
    ∃ fs, irFactor m = .ok (specIRScore m, fs) := by
  cases hl : m.lookup "information_ratio" with
  | none => exact ⟨[], by simp [irFactor, specIRScore, hl]⟩
  | some v =>
    cases v with
    | none => exact absurd rfl (h _ (lookup_mem_bag m _ _ hl))
    | some x =>
      by_cases hh : (2⁻¹ : ℚ) < x
      · exact ⟨["Excellent information ratio of " ++ pyStr (some x)],
          by simp [irFactor, specIRScore, hl, pyGT, hh]⟩
      · by_cases h0 : (0 : ℚ) < x
        · exact ⟨["Positive information ratio of " ++ pyStr (some x)],
            by simp [irFactor, specIRScore, hl, pyGT, hh, h0]⟩
        · exact ⟨["Poor information ratio of " ++ pyStr (some x)],
            by simp [irFactor, specIRScore, hl, pyGT, hh, h0]⟩

theorem sharpeTreynorFactor_spec (m : Bag) (h : NumericBag m) :
    ∃ fs, sharpeTreynorFactor m = .ok (specSTScore m, fs) := by
  cases hs : m.lookup "sharpe_ratio" with
  | none => exact ⟨[], by simp [sharpeTreynorFactor, specSTScore, hs]⟩
  | some vs =>
    cases ht : m.lookup "treynor_ratio" with
    | none => exact ⟨[], by simp [sharpeTreynorFactor, specSTScore, hs, ht]⟩
    | some vt =>
      cases vs with
      | none => exact absurd rfl (h _ (lookup_mem_bag m _ _ hs))
      | some s =>
        cases vt with
        | none => exact absurd rfl (h _ (lookup_mem_bag m _ _ ht))
        | some t =>
          by_cases h1 : (1 : ℚ) < s
          · by_cases h2 : (10⁻¹ : ℚ) < t
            · exact ⟨["Strong risk-adjusted returns"],
                by simp [sharpeTreynorFactor, specSTScore, hs, ht, pyGT, h1, h2]⟩
            · exact ⟨[],
                by simp [sharpeTreynorFactor, specSTScore, hs, ht, pyGT, h1, h2]⟩
          · exact ⟨[],
              by simp [sharpeTreynorFactor, specSTScore, hs, ht, pyGT, h1]⟩

theorem countPos_spec (ops : Bag) :
    ∀ acc : ℕ, (∀ kv ∈ ops, kv.2 ≠ none) →
      countPos ops acc = .ok (acc + (ops.filter (fun kv =>
        match kv.2 with
        | some x => decide (0 < x)
        | none => false)).length) := by
  induction ops with
  | nil => intro acc _; simp [countPos]
  | cons kv t ih =>
    intro acc hnum
    cases hv : kv.2 with
    | none => exact absurd hv (hnum kv (List.mem_cons_self kv t))
    | some x =>
      have ht : ∀ kv ∈ t, kv.2 ≠ none :=
        fun p hp => hnum p (List.mem_cons_of_mem kv hp)
      by_cases h0 : 0 < x
      · rw [countPos, hv]
        simp only [pyGT, h0, decide_True, if_true]
        rw [ih _ ht]
        simp [List.filter_cons, hv, h0]
        omega
      · rw [countPos, hv]
        simp only [pyGT, h0, decide_False, if_false]
        rw [ih _ ht]
        simp [List.filter_cons, hv, h0]

theorem outperfFactor_spec (m : Bag) (h : NumericBag m) :
    ∃ fs, outperfFactor m = .ok (specOutperfScore m, fs) := by
  have hops : ∀ kv ∈ m.filter (fun kv => isOutperfKey kv.1), kv.2 ≠ none :=
    fun kv hkv => h kv (List.mem_of_mem_filter hkv)
  have hcount := countPos_spec (m.filter (fun kv => isOutperfKey kv.1)) 0 hops
  rw [Nat.zero_add] at hcount
  by_cases hlen : 0 < (m.filter (fun kv => isOutperfKey kv.1)).length
  · have hlen0 : ¬((m.filter (fun kv => isOutperfKey kv.1)).length = 0) := by omega
    by_cases h34 : (3/4 : ℚ) ≤
        (((m.filter (fun a => (match a.2 with
          | some x => decide (0 < x)
          | none => false) && isOutperfKey a.1)).length : ℚ) /
          ((m.filter (fun kv => isOutperfKey kv.1)).length : ℚ))
    · exact ⟨["Consistent outperformance across periods"],
        by simp [outperfFactor, specOutperfScore, hcount, hlen, hlen0, h34]⟩
    · by_cases h12 : (2⁻¹ : ℚ) ≤
          (((m.filter (fun a => (match a.2 with
            | some x => decide (0 < x)
            | none => false) && isOutperfKey a.1)).length : ℚ) /
            ((m.filter (fun kv => isOutperfKey kv.1)).length : ℚ))
      · exact ⟨["Generally outperforms benchmark"],
          by simp [outperfFactor, specOutperfScore, hcount, hlen, hlen0, h34, h12]⟩
      · exact ⟨["Inconsistent benchmark performance"],
          by simp [outperfFactor, specOutperfScore, hcount, hlen, hlen0, h34, h12]⟩
  · have hlen0 : (m.filter (fun kv => isOutperfKey kv.1)).length = 0 := by omega
    exact ⟨[], by simp [outperfFactor, specOutperfScore, hcount, hlen, hlen0]⟩

theorem recCore_spec (m : Bag) (h : NumericBag m) :
    ∃ fs, recCore m = .ok (specScore m, fs) := by
  obtain ⟨fa, ha⟩ := alphaFactor_spec m h
  obtain ⟨fi, hi⟩ := irFactor_spec m h
  obtain ⟨fst, hst⟩ := sharpeTreynorFactor_spec m h
  obtain ⟨fop, hop⟩ := outperfFactor_spec m h
  exact ⟨fa ++ fi ++ fst ++ fop, by simp [recCore, ha, hi, hst, hop, specScore]⟩

/-- C2 (amended): the scorer never raises on bags whose present entries are
numbers; a signal whose key is absent contributes score 0 and no factor
string; scoring is deterministic.  (As stated over all bags the claim fails:
a present key bound to `None` raises, see the counterexample.) -/
theorem claim_C2 :
    (∀ m : Bag, NumericBag m → ∃ s, get_benchmark_recommendation m = .ok s) ∧
    (∀ m : Bag, m.lookup "alpha_pct" = none → alphaFactor m = .ok (0, [])) ∧
    (∀ m : Bag, m.lookup "information_ratio" = none → irFactor m = .ok (0, [])) ∧
    (∀ m : Bag, m.lookup "sharpe_ratio" = none ∨ m.lookup "treynor_ratio" = none →
      sharpeTreynorFactor m = .ok (0, [])) ∧
    (∀ m : Bag, m.filter (fun kv => isOutperfKey kv.1) = [] →
      outperfFactor m = .ok (0, [])) ∧
    (∀ m m' : Bag, m = m' →
      get_benchmark_recommendation m = get_benchmark_recommendation m') := by
  refine ⟨?_, ?_, ?_, ?_, ?_, ?_⟩
  · intro m h
    obtain ⟨fs, hc⟩ := recCore_spec m h
    exact ⟨(recLabel (specScore m)).1 ++ ": " ++ (recLabel (specScore m)).2 ++
      ". Key factors: " ++ String.intercalate "; " (fs.take 3),
      by simp [get_benchmark_recommendation, hc]⟩
  · intro m h; simp [alphaFactor, h]
  · intro m h; simp [irFactor, h]
  · intro m h
    rcases h with h | h
    · simp [sharpeTreynorFactor, h]
    · cases hs : m.lookup "sharpe_ratio" <;> simp [sharpeTreynorFactor, hs, h]
  · intro m h; simp [outperfFactor, h, countPos]
  · intro m m' h; rw [h]

/-- C2 counterexample: the merged-bag shape the claim itself highlights —
`sharpe_ratio` present with value `None` while `treynor_ratio` is present —
makes `get_benchmark_recommendation` raise a `TypeError` (`None > 1`),
refuting "returns a label and rationale without raising any error for every
MetricsBag". -/
theorem claim_C2_counterexample :
    get_benchmark_recommendation noneSharpeBag = .error .typeError := by rfl

theorem claim_C2_witness :
    ∃ s, get_benchmark_recommendation [("alpha_pct", some 4)] = .ok s :=
  claim_C2.1 [("alpha_pct", some 4)] (by simp [NumericBag])

/-- C3: on numeric bags the scorer's score equals the spec's additive table
(`specScore`), the label follows the `≥5 / ≥3 / ≥0` thresholds
(`specLabel`), the rationale appends the first at-most-3 triggered factor
descriptions joined by "; ", and the spec's scenario bag scores 7. -/
theorem claim_C3 :
    (∀ m : Bag, NumericBag m → ∃ fs, recCore m = .ok (specScore m, fs) ∧
      get_benchmark_recommendation m = .ok ((recLabel (specScore m)).1 ++ ": " ++
        (recLabel (specScore m)).2 ++ ". Key factors: " ++
        String.intercalate "; " (fs.take 3))) ∧
    (∀ sc : ℤ, (recLabel sc).1 = specLabel sc) ∧
    specScore exampleBag = 7 ∧
    (∃ fs, recCore exampleBag = .ok (7, fs)) ∧
    specLabel 7 = "STRONG BUY" := by
  have ha : List.lookup "alpha_pct" exampleBag = some (some 4) := rfl
  have hi : List.lookup "information_ratio" exampleBag = some (some (3/5)) := rfl
  have hs : List.lookup "sharpe_ratio" exampleBag = none := rfl
  have hops : exampleBag.filter (fun kv => isOutperfKey kv.1) =
      [("outperformance_1y_pct", some 2), ("outperformance_2y_pct", some 3)] := rfl
  have h7 : specScore exampleBag = 7 := by
    have h1 : specAlphaScore exampleBag = 3 := by
      rw [specAlphaScore, ha]; norm_num
    have h2 : specIRScore exampleBag = 2 := by
      rw [specIRScore, hi]; norm_num
    have h3 : specSTScore exampleBag = 0 := by
      rw [specSTScore, hs]
    have h4 : specOutperfScore exampleBag = 2 := by
      rw [specOutperfScore]
      simp only [hops]
      norm_num [List.filter]
    rw [specScore, h1, h2, h3, h4]
    norm_num
  refine ⟨?_, ?_, h7, ?_, by rfl⟩
  · intro m h
    obtain ⟨fs, hc⟩ := recCore_spec m h
    exact ⟨fs, hc, by simp [get_benchmark_recommendation, hc]⟩
  · intro sc
    simp only [recLabel, specLabel]
    split_ifs <;> rfl
  · obtain ⟨fs, hc⟩ := recCore_spec exampleBag
      (by simp [NumericBag, exampleBag])
    exact ⟨fs, by rw [hc, h7]⟩

theorem claim_C3_witness :
    ∃ fs, recCore exampleBag = .ok (specScore exampleBag, fs) ∧
      get_benchmark_recommendation exampleBag =
        .ok ((recLabel (specScore exampleBag)).1 ++ ": " ++
          (recLabel (specScore exampleBag)).2 ++ ". Key factors: " ++
          String.intercalate "; " (fs.take 3)) :=
  claim_C3.1 exampleBag (by simp [NumericBag, exampleBag])

theorem lex2_refl (p : ℚ × ℚ) : lex2Le p p := Or.inr ⟨rfl, le_refl _⟩

theorem lex2_total (p q : ℚ × ℚ) : lex2Le p q ∨ lex2Le q p := by
  rcases lt_trichotomy p.1 q.1 with h | h | h
  · exact Or.inl (Or.inl h)
  · rcases le_total p.2 q.2 with h2 | h2
    · exact Or.inl (Or.inr ⟨h, h2⟩)
    · exact Or.inr (Or.inr ⟨h.symm, h2⟩)
  · exact Or.inr (Or.inl h)

theorem lex2_trans {p q r : ℚ × ℚ} (h1 : lex2Le p q) (h2 : lex2Le q r) :
    lex2Le p r := by
  rcases h1 with h1 | ⟨h1e, h1le⟩
  · rcases h2 with h2 | ⟨h2e, _⟩
    · exact Or.inl (lt_trans h1 h2)
    · exact Or.inl (h2e ▸ h1)
  · rcases h2 with h2 | ⟨h2e, h2le⟩
    · exact Or.inl (h1e ▸ h2)
    · exact Or.inr ⟨h1e.trans h2e, le_trans h1le h2le⟩

theorem lex3_refl (p : ℚ × ℚ × ℚ) : lex3Le p p := Or.inr ⟨rfl, lex2_refl p.2⟩

theorem lex3_total (p q : ℚ × ℚ × ℚ) : lex3Le p q ∨ lex3Le q p := by
  rcases lt_trichotomy p.1 q.1 with h | h | h
  · exact Or.inl (Or.inl h)
  · rcases lex2_total p.2 q.2 with h2 | h2
    · exact Or.inl (Or.inr ⟨h, h2⟩)
    · exact Or.inr (Or.inr ⟨h.symm, h2⟩)
  · exact Or.inr (Or.inl h)

theorem lex3_trans {p q r : ℚ × ℚ × ℚ} (h1 : lex3Le p q) (h2 : lex3Le q r) :
    lex3Le p r := by
  rcases h1 with h1 | ⟨h1e, h1le⟩
  · rcases h2 with h2 | ⟨h2e, _⟩
    · exact Or.inl (lt_trans h1 h2)
    · exact Or.inl (h2e ▸ h1)
  · rcases h2 with h2 | ⟨h2e, h2le⟩
    · exact Or.inl (h1e ▸ h2)
    · exact Or.inr ⟨h1e.trans h2e, lex2_trans h1le h2le⟩

/-- C4 (amended): both ranking modes sort descending by their sentinel-filled
key tuples without raising (the output is a permutation), ties are broken by
later tuple components via the lexicographic key order, the sorts are stable
(key-equal funds keep provider order), and a fund with missing data sorts
after a fund whose present first key component exceeds the sentinel.  (As
frozen the claim fails: a present value below the sentinel sorts below a
missing one, see the counterexample.) -/
theorem claim_C4 :
    (∀ l, List.Sorted plainDesc (sortPlain l)) ∧
    (∀ l, List.Sorted benchDesc (sortBench l)) ∧
    (∀ l a b, [a, b].Sublist l → plainKey a = plainKey b →
      [a, b].Sublist (sortPlain l)) ∧
    (∀ l a b, [a, b].Sublist l → benchKey a = benchKey b →
      [a, b].Sublist (sortBench l)) ∧
    (∀ l a b, [a, b].Sublist (sortPlain l) → lex2Le (plainKey b) (plainKey a)) ∧
    (∀ l a b, [a, b].Sublist (sortBench l) → lex3Le (benchKey b) (benchKey a)) ∧
    (∀ x : FundRec, x.sharpe = none → x.cagr3y = none →
      plainKey x = (-1000000000, -1000000000)) ∧
    (∀ l (x y : FundRec) (s : ℚ), x.sharpe = none → x.cagr3y = none →
      y.sharpe = some s → -1000000000 < s → ¬ [x, y].Sublist (sortPlain l)) ∧
    (∀ l, (sortPlain l).Perm l ∧ (sortBench l).Perm l) := by
  haveI instTot2 : IsTotal FundRec plainDesc :=
    ⟨fun a b => lex2_total (plainKey b) (plainKey a)⟩
  haveI instTr2 : IsTrans FundRec plainDesc :=
    ⟨fun a b c h1 h2 => lex2_trans h2 h1⟩
  haveI instTot3 : IsTotal FundRec benchDesc :=
    ⟨fun a b => lex3_total (benchKey b) (benchKey a)⟩
  haveI instTr3 : IsTrans FundRec benchDesc :=
    ⟨fun a b c h1 h2 => lex3_trans h2 h1⟩
  have hsorted2 : ∀ l, List.Sorted plainDesc (sortPlain l) :=
    fun l => List.sorted_insertionSort plainDesc l
  have hsorted3 : ∀ l, List.Sorted benchDesc (sortBench l) :=
    fun l => List.sorted_insertionSort benchDesc l
  have hdesc2 : ∀ l a b, [a, b].Sublist (sortPlain l) →
      lex2Le (plainKey b) (plainKey a) := by
    intro l a b hsub
    have hp : List.Pairwise plainDesc [a, b] := (hsorted2 l).sublist hsub
    have hab : plainDesc a b := List.pairwise_pair.mp hp
    exact hab
  refine ⟨hsorted2, hsorted3, ?_, ?_, hdesc2, ?_, ?_, ?_, ?_⟩
  · intro l a b hsub hkey
    have hab : plainDesc a b := by
      show lex2Le (plainKey b) (plainKey a)
      rw [← hkey]
      exact lex2_refl _
    exact List.pair_sublist_insertionSort hab hsub
  · intro l a b hsub hkey
    have hab : benchDesc a b := by
      show lex3Le (benchKey b) (benchKey a)
      rw [← hkey]
      exact lex3_refl _
    exact List.pair_sublist_insertionSort hab hsub
  · intro l a b hsub
    have hp : List.Pairwise benchDesc [a, b] := (hsorted3 l).sublist hsub
    have hab : benchDesc a b := List.pairwise_pair.mp hp
    exact hab
  · intro x hs hc
    simp [plainKey, hs, hc]
  · intro l x y s hxs hxc hys hsgt hsub
    have h := hdesc2 l x y hsub
    have hx : plainKey x = (-1000000000, -1000000000) := by simp [plainKey, hxs, hxc]
    have hy : (plainKey y).1 = s := by simp [plainKey, hys]
    rcases h with h | ⟨he, _⟩
    · rw [hx, hy] at h
      exact absurd h (not_lt.mpr (le_of_lt hsgt))
    · rw [hx] at he
      rw [hy] at he
      simp only [] at he
      exact absurd he (ne_of_gt hsgt)
  · intro l
    exact ⟨List.perm_insertionSort plainDesc l, List.perm_insertionSort benchDesc l⟩

/-- C4 counterexample: in plain mode a fund with `sharpe_ratio = -2e9`
(present data) sorts after a fund with `sharpe_ratio = None` (missing data),
because the `-1e9` sentinel is larger — refuting "every fund with missing
data sorts after every fund with present data". -/
theorem claim_C4_counterexample :
    sortPlain [recPresentLow, recMissing] = [recMissing, recPresentLow] ∧
    recPresentLow.sharpe ≠ none ∧ recMissing.sharpe = none := by
  refine ⟨?_, by simp [recPresentLow], rfl⟩
  decide

theorem claim_C4_witness :
    List.Sorted plainDesc (sortPlain [recPresentLow, recMissing]) ∧
    [(⟨"x", some 1, none, none, none⟩ : FundRec),
     (⟨"y", some 1, none, none, none⟩ : FundRec)].Sublist
      (sortPlain [⟨"x", some 1, none, none, none⟩, ⟨"y", some 1, none, none, none⟩]) := by
  constructor
  · exact claim_C4.1 [recPresentLow, recMissing]
  · exact claim_C4.2.2.1 [⟨"x", some 1, none, none, none⟩, ⟨"y", some 1, none, none, none⟩]
      _ _ (List.Sublist.refl _) rfl

theorem c8Series_eval (g : ℚ) :
    full_period_cagr (c8Series g) =
      some (((1 + g : ℚ) : ℝ) ^ ((1461 : ℝ) / 1460) - 1) := by
  have hlen : ¬(c8Series g).length < 2 := by simp [c8Series]
  have hlast : (c8Series g).getLastI = (DAYS_PER_YEAR, 100 * (1 + g)) := rfl
  have hhead : (c8Series g).headI = ((0 : ℚ), (100 : ℚ)) := rfl
  simp only [full_period_cagr, if_neg hlen, hlast, hhead]
  have hfloor : (⌊(DAYS_PER_YEAR, 100 * (1 + g)).1 - ((0 : ℚ), (100 : ℚ)).1⌋ : ℚ) = 365 := by
    norm_num [DAYS_PER_YEAR]
  rw [hfloor]
  have hny : (365 : ℚ) / DAYS_PER_YEAR = 1460 / 1461 := by norm_num [DAYS_PER_YEAR]
  rw [hny]
  rw [if_neg (by norm_num : ¬((1460 : ℚ) / 1461 ≤ 0))]
  simp only [cagrOf]
  have hexp : ((1 : ℚ) / ((1460 : ℚ) / 1461) : ℚ) = 1461 / 1460 := by norm_num
  rw [hexp]
  have hcast : (((1461 : ℚ) / 1460 : ℚ) : ℝ) = (1461 : ℝ) / 1460 := by push_cast; ring
  rw [hcast]
  have hratio : (((100 : ℚ) * (1 + g) : ℚ) : ℝ) / (((100 : ℚ) : ℚ) : ℝ) =
      ((1 + g : ℚ) : ℝ) := by
    push_cast
    field_simp
  rw [hratio]

/-- C8 (amended): on the two-point series `nav0 = 100`, `nav1 = 100*(1+g)`
with dates exactly 365.25 days apart, `full_period_cagr` does not recover `g`:
`Timedelta.days` truncates the elapsed time to 365 whole days, so the result
is `(1+g)^(365.25/365) - 1 = (1+g)^(1461/1460) - 1`, which overshoots `g`
for `g > 0`, undershoots it for `-1 < g < 0`, and equals it only at `g = 0`. -/
theorem claim_C8 :
    (∀ g : ℚ, full_period_cagr (c8Series g) =
      some (((1 + g : ℚ) : ℝ) ^ ((1461 : ℝ) / 1460) - 1)) ∧
    (∀ g : ℚ, 0 < g → (g : ℝ) < ((1 + g : ℚ) : ℝ) ^ ((1461 : ℝ) / 1460) - 1) ∧
    (∀ g : ℚ, -1 < g → g < 0 →
      ((1 + g : ℚ) : ℝ) ^ ((1461 : ℝ) / 1460) - 1 < (g : ℝ)) ∧
    full_period_cagr (c8Series 0) = some 0 := by
  refine ⟨c8Series_eval, ?_, ?_, ?_⟩
  · intro g hg
    have hb : (1 : ℝ) < ((1 + g : ℚ) : ℝ) := by
      push_cast
      linarith [(Rat.cast_pos (K := ℝ)).mpr hg]
    have h1 : ((1 + g : ℚ) : ℝ) ^ (1 : ℝ) <
        ((1 + g : ℚ) : ℝ) ^ ((1461 : ℝ) / 1460) :=
      (Real.rpow_lt_rpow_left_iff hb).mpr (by norm_num)
    rw [Real.rpow_one] at h1
    have hc : ((1 + g : ℚ) : ℝ) = 1 + (g : ℝ) := by push_cast; ring
    linarith [h1, hc]
  · intro g hg1 hg0
    have hb0 : (0 : ℝ) < ((1 + g : ℚ) : ℝ) := by
      push_cast
      have : (-1 : ℝ) < (g : ℝ) := by exact_mod_cast hg1
      linarith
    have hb1 : ((1 + g : ℚ) : ℝ) < 1 := by
      push_cast
      have : (g : ℝ) < 0 := by exact_mod_cast hg0
      linarith
    have h1 : ((1 + g : ℚ) : ℝ) ^ ((1461 : ℝ) / 1460) <
        ((1 + g : ℚ) : ℝ) ^ (1 : ℝ) :=
      Real.rpow_lt_rpow_of_exponent_gt hb0 hb1 (by norm_num)
    rw [Real.rpow_one] at h1
    have hc : ((1 + g : ℚ) : ℝ) = 1 + (g : ℝ) := by push_cast; ring
    linarith [h1, hc]
  · rw [c8Series_eval 0]
    norm_num

theorem claim_C8_witness :
    ((1 : ℚ) : ℝ) < ((1 + (1 : ℚ) : ℚ) : ℝ) ^ ((1461 : ℝ) / 1460) - 1 :=
  claim_C8.2.1 1 one_pos

/-- C8 counterexample: at `g = 2^1460 - 1` (a valid growth rate `> -1`) the
function returns `2^1461 - 1`, which exceeds `g` by `2^1460` — far beyond
floating rounding — because the 365.25-day gap truncates to 365 days. -/
theorem claim_C8_counterexample :
    full_period_cagr (c8Series (2 ^ 1460 - 1)) =
      some ((2 : ℝ) ^ (1461 : ℕ) - 1) ∧
    (1 : ℝ) ≤ ((2 : ℝ) ^ (1461 : ℕ) - 1) - (((2 : ℚ) ^ 1460 - 1 : ℚ) : ℝ) := by
  constructor
  · rw [c8Series_eval (2 ^ 1460 - 1)]
    have hbase : ((1 + ((2 : ℚ) ^ 1460 - 1) : ℚ) : ℝ) = (2 : ℝ) ^ (1460 : ℕ) := by
      push_cast
      ring
    rw [hbase]
    rw [← Real.rpow_natCast 2 1460, ← Real.rpow_mul (by norm_num : (0 : ℝ) ≤ 2)]
    rw [show ((1460 : ℕ) : ℝ) * ((1461 : ℝ) / 1460) = ((1461 : ℕ) : ℝ) by
      push_cast; norm_num]
    rw [Real.rpow_natCast]
  · have hcast : (((2 : ℚ) ^ 1460 - 1 : ℚ) : ℝ) = (2 : ℝ) ^ (1460 : ℕ) - 1 := by
      push_cast
      ring
    rw [hcast]
    have hpow : (2 : ℝ) ^ (1461 : ℕ) = 2 * (2 : ℝ) ^ (1460 : ℕ) := by
      rw [pow_succ]
      ring
    rw [hpow]
    have h1 : (1 : ℝ) ≤ (2 : ℝ) ^ (1460 : ℕ) := by
      calc (1 : ℝ) = 1 ^ (1460 : ℕ) := by norm_num
        _ ≤ (2 : ℝ) ^ (1460 : ℕ) := by
          apply pow_le_pow_left₀ <;> norm_num
    linarith

theorem find?_filter_of_imp {α : Type _} (l : List α) (p q : α → Bool)
    (h : ∀ x ∈ l, p x = true → q x = true) :
    (l.filter q).find? p = l.find? p := by
  induction l with
  | nil => rfl
  | cons a t ih =>
    have ht : ∀ x ∈ t, p x = true → q x = true :=
      fun x hx => h x (List.mem_cons_of_mem a hx)
    by_cases hq : q a = true
    · rw [List.filter_cons, if_pos hq]
      cases hp : p a with
      | true =>
        rw [List.find?_cons_of_pos _ hp, List.find?_cons_of_pos _ hp]
      | false =>
        rw [List.find?_cons_of_neg _ (by simp [hp]),
          List.find?_cons_of_neg _ (by simp [hp]), ih ht]
    · have hp : p a = false := by
        by_contra hc
        exact hq (h a (List.mem_cons_self a t) (by simpa using hc))
      rw [List.filter_cons, if_neg hq, ih ht,
        List.find?_cons_of_neg _ (by simp [hp])]

theorem innerJoin_filter_aux (lo hi : ℚ) :
    ∀ fund bench : NavSeries,
      (∀ r ∈ fund, ∀ s ∈ bench, s.1 = r.1 → lo ≤ r.1 ∧ r.1 ≤ hi) →
      innerJoin (fund.filter (fun r => decide (lo ≤ r.1) && decide (r.1 ≤ hi)))
        (bench.filter (fun r => decide (lo ≤ r.1) && decide (r.1 ≤ hi))) =
      innerJoin fund bench := by
  intro fund
  induction fund with
  | nil => intro bench _; rfl
  | cons r f' ih =>
    intro bench hf
    have hf' : ∀ r' ∈ f', ∀ s ∈ bench, s.1 = r'.1 → lo ≤ r'.1 ∧ r'.1 ≤ hi :=
      fun r' hr' => hf r' (List.mem_cons_of_mem r hr')
    simp only [innerJoin] at ih ⊢
    cases hfind : bench.find? (fun s => decide (s.1 = r.1)) with
    | some s =>
      have hs_mem : s ∈ bench := List.mem_of_find?_eq_some hfind
      have hs_eq : s.1 = r.1 := by
        have hps := @List.find?_some (ℚ × ℚ) (fun s' => decide (s'.1 = r.1)) s bench hfind
        simpa using hps
      have hr_range := hf r (List.mem_cons_self r f') s hs_mem hs_eq
      have hq : (decide (lo ≤ r.1) && decide (r.1 ≤ hi)) = true := by
        simp [hr_range.1, hr_range.2]
      have hbf : (bench.filter (fun s' => decide (lo ≤ s'.1) && decide (s'.1 ≤ hi))).find?
          (fun s' => decide (s'.1 = r.1)) =
          bench.find? (fun s' => decide (s'.1 = r.1)) := by
        apply find?_filter_of_imp
        intro x hx hpx
        have hx_eq : x.1 = r.1 := of_decide_eq_true hpx
        have hxr := hf r (List.mem_cons_self r f') x hx hx_eq
        simp only [Bool.and_eq_true, decide_eq_true_eq]
        rw [hx_eq]
        exact hxr
      rw [List.filter_cons, if_pos hq, List.filterMap_cons, List.filterMap_cons,
        hbf, hfind]
      simp only [Option.map_some']
      rw [ih bench hf']
    | none =>
      have hbf_none : (bench.filter (fun s' => decide (lo ≤ s'.1) && decide (s'.1 ≤ hi))).find?
          (fun s' => decide (s'.1 = r.1)) = none := by
        rw [List.find?_eq_none] at hfind ⊢
        exact fun x hx => hfind x (List.mem_of_mem_filter hx)
      by_cases hq : (decide (lo ≤ r.1) && decide (r.1 ≤ hi)) = true
      · rw [List.filter_cons, if_pos hq, List.filterMap_cons, List.filterMap_cons,
          hbf_none, hfind]
        simp only [Option.map_none']
        exact ih bench hf'
      · rw [List.filter_cons, if_neg hq, List.filterMap_cons, hfind]
        simp only [Option.map_none']
        exact ih bench hf'

theorem innerJoin_commonFiltered (fund bench : NavSeries) :
    innerJoin (commonFiltered fund bench).1 (commonFiltered fund bench).2 =
      innerJoin fund bench := by
  simp only [commonFiltered]
  apply innerJoin_filter_aux
  intro r hr s hs hsr
  constructor
  · exact max_le (minDate_le_of_mem hr) (hsr ▸ minDate_le_of_mem hs)
  · exact le_min (le_maxDate_of_mem hr) (hsr ▸ le_maxDate_of_mem hs)

theorem bmBeta_joinPath (synth : ℕ → List ℚ) (fund bench : NavSeries)
    (h1 : fund ≠ []) (h2 : bench ≠ [])
    (hf : 10 ≤ (commonFiltered fund bench).1.length)
    (hb : 10 ≤ (commonFiltered fund bench).2.length) :
    bmBeta synth fund bench = raBeta fund bench := by
  have hne : ¬(fund = [] ∨ bench = []) := by simp [h1, h2]
  have h10 : ¬((commonFiltered fund bench).1.length < 10 ∨
      (commonFiltered fund bench).2.length < 10) := by omega
  have htab : alignedTable synth fund bench = some (innerJoin fund bench) := by
    simp only [alignedTable, if_neg hne, if_neg h10, innerJoin_commonFiltered]
  rw [bmBeta, htab, raBeta]
  by_cases hm : (innerJoin fund bench).length < 2
  · simp [hm]
  · simp only [if_neg hm]
    by_cases hfr : (pctChange ((innerJoin fund bench).map Row.nav_fund)).length < 2 ∨
        (pctChange ((innerJoin fund bench).map Row.nav_bench)).length < 2
    · have hfr' : (pctChange ((innerJoin fund bench).map Row.nav_fund)).length ≤ 1 ∨
          (pctChange ((innerJoin fund bench).map Row.nav_bench)).length ≤ 1 := by omega
      simp [hfr, hfr']
    · have hfr' : ¬((pctChange ((innerJoin fund bench).map Row.nav_fund)).length ≤ 1 ∨
          (pctChange ((innerJoin fund bench).map Row.nav_bench)).length ≤ 1) := by omega
      simp [hfr, hfr']

theorem raTreynor_absent (fund bench : NavSeries)
    (h : raBeta fund bench = none ∨ raBeta fund bench = some 0) :
    raTreynor fund bench = none := by
  rw [raTreynor]
  rw [raBeta] at h
  by_cases hm : (innerJoin fund bench).length < 2
  · simp [hm]
  · simp only [if_neg hm] at h ⊢
    by_cases hlen : (pctChange ((innerJoin fund bench).map Row.nav_fund)).length ≤ 1 ∨
        (pctChange ((innerJoin fund bench).map Row.nav_bench)).length ≤ 1
    · simp [hlen]
    · simp only [if_neg hlen] at h ⊢
      cases hbeta : betaOf (pctChange ((innerJoin fund bench).map Row.nav_fund))
          (pctChange ((innerJoin fund bench).map Row.nav_bench)) with
      | none => rfl
      | some b =>
        rw [hbeta] at h
        rcases h with h | h
        · cases h
        · have hb0 : b = 0 := Option.some_inj.mp h
          simp [hb0]

/-- C9 (amended): the beta of `calculate_risk_adjusted_metrics` coincides
with the comparator's beta exactly on the common-window join path (both
filtered series have at least 10 points) — the inner join of the filtered
frames equals the inner join of the raw frames; in the approximate-alignment
fallback the comparator uses synthesized benchmark values while the
risk-adjusted function still joins the real frames, so the betas can differ
(see the counterexample); `treynor_ratio` is absent whenever the
risk-adjusted function's own beta is 0 or undefined. -/
theorem claim_C9 :
    (∀ (synth : ℕ → List ℚ) (fund bench : NavSeries), fund ≠ [] → bench ≠ [] →
      10 ≤ (commonFiltered fund bench).1.length →
      10 ≤ (commonFiltered fund bench).2.length →
      bmBeta synth fund bench = raBeta fund bench) ∧
    (∀ fund bench : NavSeries,
      raBeta fund bench = none ∨ raBeta fund bench = some 0 →
      raTreynor fund bench = none) :=
  ⟨bmBeta_joinPath, raTreynor_absent⟩

set_option maxRecDepth 100000 in
theorem alignedTable_c9a (synth : ℕ → List ℚ) :
    alignedTable synth fundC9 benchC9a = some (fallbackTable fundC9 (synth 12)) := by
  have hdays : fundC9.getLastI.1 - fundC9.headI.1 = 11 := by
    norm_num [fundC9, List.getLastI]
  simp only [alignedTable]
  rw [if_neg (by decide : ¬(fundC9 = [] ∨ benchC9a = []))]
  rw [if_pos (by decide : (commonFiltered fundC9 benchC9a).1.length < 10 ∨
    (commonFiltered fundC9 benchC9a).2.length < 10)]
  rw [if_pos (by decide : 2 ≤ fundC9.length)]
  rw [if_pos (by rw [hdays]; norm_num : (0 : ℤ) < ⌊fundC9.getLastI.1 - fundC9.headI.1⌋)]
  rw [show fundC9.length = 12 from by decide]

set_option maxRecDepth 100000 in
theorem alignedTable_c9b (synth : ℕ → List ℚ) :
    alignedTable synth fundC9 benchC9b = some (fallbackTable fundC9 (synth 12)) := by
  have hdays : fundC9.getLastI.1 - fundC9.headI.1 = 11 := by
    norm_num [fundC9, List.getLastI]
  simp only [alignedTable]
  rw [if_neg (by decide : ¬(fundC9 = [] ∨ benchC9b = []))]
  rw [if_pos (by decide : (commonFiltered fundC9 benchC9b).1.length < 10 ∨
    (commonFiltered fundC9 benchC9b).2.length < 10)]
  rw [if_pos (by decide : 2 ≤ fundC9.length)]
  rw [if_pos (by rw [hdays]; norm_num : (0 : ℤ) < ⌊fundC9.getLastI.1 - fundC9.headI.1⌋)]
  rw [show fundC9.length = 12 from by decide]

theorem raBeta_c9a : raBeta fundC9 benchC9a = some 2 := by
  have hj : innerJoin fundC9 benchC9a =
      [⟨0, 1, 1⟩, ⟨1, 2, 2⟩, ⟨2, 1, 2⟩, ⟨3, 2, 4⟩, ⟨4, 1, 4⟩] := by decide
  simp only [raBeta, hj]
  norm_num [pctChange, betaOf, popVar, meanQ, sampleCov]

theorem raBeta_c9b : raBeta fundC9 benchC9b = some 0 := by
  have hj : innerJoin fundC9 benchC9b =
      [⟨0, 1, 1⟩, ⟨1, 2, 2⟩, ⟨2, 1, 2⟩, ⟨3, 2, 2⟩, ⟨4, 1, 4⟩] := by decide
  simp only [raBeta, hj]
  norm_num [pctChange, betaOf, popVar, meanQ, sampleCov]

/-- C9 counterexample: no synthetic-generator output whatsoever can make the
two betas agree on all inputs, because in the fallback the comparator's table
ignores the benchmark's values entirely: `fundC9` with `benchC9a` and with
`benchC9b` produce the same comparator beta, while the risk-adjusted betas
are 2 and 0 respectively. -/
theorem claim_C9_counterexample :
    ¬ ∃ synth : ℕ → List ℚ, ∀ fund bench : NavSeries,
      bmBeta synth fund bench = raBeta fund bench := by
  rintro ⟨synth, h⟩
  have heq : bmBeta synth fundC9 benchC9a = bmBeta synth fundC9 benchC9b := by
    simp only [bmBeta, alignedTable_c9a, alignedTable_c9b]
  rw [h fundC9 benchC9a, h fundC9 benchC9b, raBeta_c9a, raBeta_c9b] at heq
  exact absurd (Option.some_inj.mp heq) (by norm_num)

set_option maxRecDepth 100000 in
theorem claim_C9_witness :
    bmBeta (fun _ => [])
      [((0 : ℚ), (1 : ℚ)), (1, 2), (2, 3), (3, 4), (4, 5), (5, 6), (6, 7),
       (7, 8), (8, 9), (9, 10), (10, 11)]
      [((0 : ℚ), (1 : ℚ)), (1, 2), (2, 3), (3, 4), (4, 5), (5, 6), (6, 7),
       (7, 8), (8, 9), (9, 10), (10, 11)] =
    raBeta
      [((0 : ℚ), (1 : ℚ)), (1, 2), (2, 3), (3, 4), (4, 5), (5, 6), (6, 7),
       (7, 8), (8, 9), (9, 10), (10, 11)]
      [((0 : ℚ), (1 : ℚ)), (1, 2), (2, 3), (3, 4), (4, 5), (5, 6), (6, 7),
       (7, 8), (8, 9), (9, 10), (10, 11)] :=
  claim_C9.1 (fun _ => []) _ _ (by decide) (by decide) (by decide) (by decide)

theorem pctChange_length (l : List ℚ) : (pctChange l).length = l.length - 1 := by
  cases l with
  | nil => rfl
  | cons x xs =>
    simp only [pctChange, List.length_zipWith, List.tail_cons, List.length_cons]
    omega

theorem innerJoin_skip_head (f : NavSeries) (s : ℚ × ℚ) (b : NavSeries)
    (h : ∀ r ∈ f, r.1 ≠ s.1) :
    innerJoin f (s :: b) = innerJoin f b := by
  induction f with
  | nil => rfl
  | cons r f' ih =>
    have hr : r.1 ≠ s.1 := h r (List.mem_cons_self r f')
    have hs : ¬(s.1 = r.1) := fun hc => hr hc.symm
    simp only [innerJoin, List.filterMap_cons]
    rw [List.find?_cons_of_neg _ (by simp [hs])]
    have ih' := ih (fun r' hr' => h r' (List.mem_cons_of_mem r hr'))
    simp only [innerJoin] at ih'
    rw [ih']

theorem innerJoin_same_dates :
    ∀ f b : NavSeries, f.map Prod.fst = b.map Prod.fst →
      (f.map Prod.fst).Nodup →
      innerJoin f b =
        List.zipWith (fun rf rb : ℚ × ℚ => Row.mk rf.1 rf.2 rb.2) f b := by
  intro f
  induction f with
  | nil =>
    intro b hdates _
    have : b = [] := by
      cases b with
      | nil => rfl
      | cons s b' => simp at hdates
    rw [this]; rfl
  | cons r f' ih =>
    intro b hdates hnodup
    cases b with
    | nil => simp at hdates
    | cons s b' =>
      simp only [List.map_cons, List.cons.injEq] at hdates
      obtain ⟨hd, hds⟩ := hdates
      simp only [List.map_cons, List.nodup_cons] at hnodup
      obtain ⟨hnotin, hnodup'⟩ := hnodup
      simp only [innerJoin, List.filterMap_cons]
      rw [List.find?_cons_of_pos _ (by simp [hd.symm])]
      simp only [Option.map_some', List.zipWith_cons_cons]
      have hskip : innerJoin f' (s :: b') = innerJoin f' b' := by
        apply innerJoin_skip_head
        intro r' hr' hc
        have hmem : r'.1 ∈ f'.map Prod.fst := List.mem_map_of_mem Prod.fst hr'
        rw [hc, ← hd] at hmem
        exact hnotin hmem
      simp only [innerJoin] at hskip ih
      rw [hskip, ih b' hds hnodup']

theorem alignedTable_same_dates (synth : ℕ → List ℚ) (f b : NavSeries)
    (hdates : f.map Prod.fst = b.map Prod.fst)
    (hnodup : (f.map Prod.fst).Nodup)
    (hne : f ≠ []) (hlen : 10 ≤ f.length) :
    alignedTable synth f b =
      some (List.zipWith (fun rf rb : ℚ × ℚ => Row.mk rf.1 rf.2 rb.2) f b) := by
  have hblen : b.length = f.length := by
    have hll := congrArg List.length hdates
    simp only [List.length_map] at hll
    exact hll.symm
  have hbne : b ≠ [] := by
    intro hb
    rw [hb] at hblen
    simp at hblen
    exact hne (List.length_eq_zero.mp hblen.symm)
  have hmin : minDate f = minDate b := by
    simp only [minDate, hdates]
  have hmax : maxDate f = maxDate b := by
    simp only [maxDate, hdates]
  have hlo : max (minDate f) (minDate b) = minDate f := by rw [← hmin, max_self]
  have hhi : min (maxDate f) (maxDate b) = maxDate f := by rw [← hmax, min_self]
  have hfilt_f : f.filter (fun r => decide (max (minDate f) (minDate b) ≤ r.1) &&
      decide (r.1 ≤ min (maxDate f) (maxDate b))) = f := by
    rw [List.filter_eq_self]
    intro r hr
    rw [hlo, hhi]
    simp [minDate_le_of_mem hr, le_maxDate_of_mem hr]
  have hfilt_b : b.filter (fun r => decide (max (minDate f) (minDate b) ≤ r.1) &&
      decide (r.1 ≤ min (maxDate f) (maxDate b))) = b := by
    rw [List.filter_eq_self]
    intro r hr
    rw [hlo, hhi, hmin, hmax]
    simp [minDate_le_of_mem hr, le_maxDate_of_mem hr]
  have hnottrig : ¬((commonFiltered f b).1.length < 10 ∨
      (commonFiltered f b).2.length < 10) := by
    simp only [commonFiltered, hfilt_f, hfilt_b]
    omega
  have hcf : (commonFiltered f b).1 = f := hfilt_f
  have hcb : (commonFiltered f b).2 = b := hfilt_b
  simp only [alignedTable, if_neg (by simp [hne, hbne] : ¬(f = [] ∨ b = [])),
    hcf, hcb]
  rw [if_neg (show ¬(f.length < 10 ∨ b.length < 10) by omega)]
  rw [innerJoin_same_dates f b hdates hnodup]

/-- C1 (amended): for each period in `{1y: 365, 2y: 730, 3y: 1095, 5y: 1825}`,
`calculate_benchmark_metrics` emits `outperformance_P_pct` only when the
aligned table has at least that many rows (key absent otherwise); when
emitted it takes the last N rows of the aligned table and computes each
leg's CAGR with year count `N / 365.25` — the fixed period day count divided
by 365.25, not the sub-window's elapsed days — reporting the difference
times 100 rounded to 2 places. -/
theorem claim_C1 :
    (∀ (merged : List Row) (days : ℕ) (v : ℝ),
      outperfFromTable merged days = some v → days ≤ merged.length) ∧
    (∀ (merged : List Row) (days : ℕ), merged.length < days →
      outperfFromTable merged days = none) ∧
    (∀ (merged : List Row) (days : ℕ), days ≤ merged.length → 2 ≤ days →
      0 < (merged.drop (merged.length - days)).headI.nav_fund →
      0 < (merged.drop (merged.length - days)).headI.nav_bench →
      outperfFromTable merged days = some (round2R (100 *
        (cagrOf (merged.drop (merged.length - days)).headI.nav_fund
          (merged.drop (merged.length - days)).getLastI.nav_fund
          ((days : ℚ) / DAYS_PER_YEAR) -
         cagrOf (merged.drop (merged.length - days)).headI.nav_bench
          (merged.drop (merged.length - days)).getLastI.nav_bench
          ((days : ℚ) / DAYS_PER_YEAR))))) ∧
    (∀ (synth : ℕ → List ℚ) (fund bench : NavSeries) (p : String × ℕ),
      p ∈ outperfPeriods → ∀ merged,
      alignedTable synth fund bench = some merged → p.2 ≤ merged.length →
      bmOutperf synth fund bench p.2 = outperfFromTable merged p.2) := by
  refine ⟨?_, ?_, ?_, ?_⟩
  · intro merged days v hv
    by_contra hc
    rw [outperfFromTable, if_neg (by omega : ¬days ≤ merged.length)] at hv
    cases hv
  · intro merged days h
    rw [outperfFromTable, if_neg (by omega : ¬days ≤ merged.length)]
  · intro merged days hdays h2 hpf hpb
    have hrec : 2 ≤ (merged.drop (merged.length - days)).length := by
      rw [List.length_drop]
      omega
    rw [outperfFromTable, if_pos hdays, if_pos hrec, if_pos ⟨hpf, hpb⟩]
  · intro synth fund bench p hp merged htab hlen
    have h365 : 365 ≤ p.2 := by
      simp only [outperfPeriods, List.mem_cons, List.not_mem_nil, or_false] at hp
      rcases hp with h | h | h | h <;> subst h <;> norm_num
    simp only [bmOutperf, htab]
    have hm2 : ¬(merged.length < 2) := by omega
    have hfr : ¬((pctChange (merged.map Row.nav_fund)).length < 2 ∨
        (pctChange (merged.map Row.nav_bench)).length < 2) := by
      rw [pctChange_length, pctChange_length, List.length_map, List.length_map]
      omega
    rw [if_neg hm2, if_neg hfr]

theorem zipWith_map_same {α β γ δ : Type _} (k : β → γ → δ) (u : α → β) (v : α → γ) :
    ∀ l : List α, List.zipWith k (l.map u) (l.map v) = l.map (fun a => k (u a) (v a)) := by
  intro l
  induction l with
  | nil => rfl
  | cons a t ih => simp only [List.map_cons, List.zipWith_cons_cons, ih]

theorem rheR_le (x : ℝ) : (rheR x : ℝ) ≤ x + 1 := by
  have hfl := Int.floor_le x
  rw [rheR]
  split_ifs <;> push_cast <;> linarith

theorem le_rheR (x : ℝ) : x - 1 ≤ (rheR x : ℝ) := by
  have hfl := Int.lt_floor_add_one x
  rw [rheR]
  split_ifs <;> push_cast <;> linarith

theorem round2R_le (x : ℝ) : round2R x ≤ x + 1 := by
  rw [round2R]
  have := rheR_le (x * 100)
  linarith

theorem le_round2R (x : ℝ) : x - 1 ≤ round2R x := by
  rw [round2R]
  have := le_rheR (x * 100)
  linarith

set_option maxRecDepth 100000 in
theorem table1y :
    alignedTable (fun _ => []) fund1y bench1y =
      some ((List.range 365).map (fun (i : ℕ) => Row.mk (2 * (i : ℚ)) (f1yNav i) 1)) := by
  have hdates : fund1y.map Prod.fst = bench1y.map Prod.fst := by
    simp only [fund1y, bench1y, List.map_map]
    rfl
  have hinj : Function.Injective (fun i : ℕ => 2 * (i : ℚ)) := by
    intro a b hab
    simp only at hab
    have : (a : ℚ) = (b : ℚ) := mul_left_cancel₀ two_ne_zero hab
    exact_mod_cast this
  have hnodup : (fund1y.map Prod.fst).Nodup := by
    simp only [fund1y, List.map_map]
    exact List.Nodup.map hinj (List.nodup_range 365)
  have hne : fund1y ≠ [] := by
    intro h
    have := congrArg List.length h
    simp [fund1y] at this
  have hlen : 10 ≤ fund1y.length := by norm_num [fund1y]
  rw [alignedTable_same_dates (fun _ => []) fund1y bench1y hdates hnodup hne hlen]
  congr 1

theorem table1y_len :
    ((List.range 365).map (fun (i : ℕ) => Row.mk (2 * (i : ℚ)) (f1yNav i) 1)).length = 365 := by
  simp

theorem table1y_head :
    ((List.range 365).map (fun (i : ℕ) => Row.mk (2 * (i : ℚ)) (f1yNav i) 1)).headI =
      ⟨0, 1, 1⟩ := by
  rw [show (365 : ℕ) = 364 + 1 from rfl, List.range_succ_eq_map]
  simp only [List.map_cons, List.headI]
  norm_num [f1yNav]

theorem table1y_last :
    ((List.range 365).map (fun (i : ℕ) => Row.mk (2 * (i : ℚ)) (f1yNav i) 1)).getLastI =
      ⟨728, 2 ^ 1460, 1⟩ := by
  rw [List.getLastI_eq_getLast?, List.getLast?_map,
    show (365 : ℕ) = 364 + 1 from rfl, List.range_succ, List.getLast?_concat]
  simp only [Option.map_some', Option.iget_some]
  norm_num [f1yNav]

theorem bmOutperf_1y_eval :
    bmOutperf (fun _ => []) fund1y bench1y 365 =
      some (round2R (100 * ((2 : ℝ) ^ (1461 : ℕ) - 1))) := by
  simp only [bmOutperf, table1y]
  rw [if_neg (by simp [table1y_len] : ¬(((List.range 365).map
    (fun (i : ℕ) => Row.mk (2 * (i : ℚ)) (f1yNav i) 1)).length < 2))]
  rw [if_neg (by simp [pctChange_length, table1y_len] :
    ¬((pctChange (((List.range 365).map
        (fun (i : ℕ) => Row.mk (2 * (i : ℚ)) (f1yNav i) 1)).map Row.nav_fund)).length < 2 ∨
      (pctChange (((List.range 365).map
        (fun (i : ℕ) => Row.mk (2 * (i : ℚ)) (f1yNav i) 1)).map Row.nav_bench)).length < 2))]
  rw [outperfFromTable]
  rw [if_pos (by simp [table1y_len] : (365 : ℕ) ≤ ((List.range 365).map
    (fun (i : ℕ) => Row.mk (2 * (i : ℚ)) (f1yNav i) 1)).length)]
  rw [show ((List.range 365).map
    (fun (i : ℕ) => Row.mk (2 * (i : ℚ)) (f1yNav i) 1)).length - 365 = 0 by
      simp [table1y_len]]
  rw [List.drop_zero]
  rw [if_pos (by simp [table1y_len] : 2 ≤ ((List.range 365).map
    (fun (i : ℕ) => Row.mk (2 * (i : ℚ)) (f1yNav i) 1)).length)]
  rw [if_pos ⟨by rw [table1y_head]; norm_num, by rw [table1y_head]; norm_num⟩]
  rw [table1y_head, table1y_last]
  have hc2 : cagrOf 1 (2 ^ 1460) (((365 : ℕ) : ℚ) / DAYS_PER_YEAR) =
      (2 : ℝ) ^ (1461 : ℕ) - 1 := by
    rw [cagrOf]
    rw [show ((1 : ℚ) / (((365 : ℕ) : ℚ) / DAYS_PER_YEAR) : ℚ) = 1461 / 1460 by
      norm_num [DAYS_PER_YEAR]]
    push_cast
    rw [div_one]
    rw [← Real.rpow_natCast 2 1460, ← Real.rpow_mul (by norm_num : (0 : ℝ) ≤ 2)]
    rw [show ((1460 : ℕ) : ℝ) * ((1461 : ℝ) / 1460) = ((1461 : ℕ) : ℝ) by
      push_cast; norm_num]
    rw [Real.rpow_natCast]
  have hc1 : cagrOf 1 1 (((365 : ℕ) : ℚ) / DAYS_PER_YEAR) = 0 := by
    rw [cagrOf]
    push_cast
    rw [div_one, Real.one_rpow]
    ring
  simp only [hc2, hc1, sub_zero]

theorem specBmOutperf_1y_eval :
    specBmOutperf (fun _ => []) fund1y bench1y 365 =
      some (round2R (100 * (((2 : ℝ) ^ (1460 : ℕ)) ^ ((1461 : ℝ) / 2912) - 1))) := by
  simp only [specBmOutperf, table1y]
  rw [if_neg (by simp [table1y_len] : ¬(((List.range 365).map
    (fun (i : ℕ) => Row.mk (2 * (i : ℚ)) (f1yNav i) 1)).length < 2))]
  rw [if_neg (by simp [pctChange_length, table1y_len] :
    ¬((pctChange (((List.range 365).map
        (fun (i : ℕ) => Row.mk (2 * (i : ℚ)) (f1yNav i) 1)).map Row.nav_fund)).length < 2 ∨
      (pctChange (((List.range 365).map
        (fun (i : ℕ) => Row.mk (2 * (i : ℚ)) (f1yNav i) 1)).map Row.nav_bench)).length < 2))]
  rw [specOutperfFromTable]
  rw [if_pos (by simp [table1y_len] : (365 : ℕ) ≤ ((List.range 365).map
    (fun (i : ℕ) => Row.mk (2 * (i : ℚ)) (f1yNav i) 1)).length)]
  rw [show ((List.range 365).map
    (fun (i : ℕ) => Row.mk (2 * (i : ℚ)) (f1yNav i) 1)).length - 365 = 0 by
      simp [table1y_len]]
  rw [List.drop_zero]
  rw [if_pos (by simp [table1y_len] : 2 ≤ ((List.range 365).map
    (fun (i : ℕ) => Row.mk (2 * (i : ℚ)) (f1yNav i) 1)).length)]
  rw [if_pos ⟨by rw [table1y_head]; norm_num, by rw [table1y_head]; norm_num⟩]
  rw [table1y_head, table1y_last]
  rw [show (⌊(Row.mk (728 : ℚ) (2 ^ 1460) 1).date - (Row.mk (0 : ℚ) 1 1).date⌋ : ℤ) = 728 by
    norm_num]
  have hc2 : cagrOf 1 (2 ^ 1460) (((728 : ℤ) : ℚ) / DAYS_PER_YEAR) =
      ((2 : ℝ) ^ (1460 : ℕ)) ^ ((1461 : ℝ) / 2912) - 1 := by
    rw [cagrOf]
    rw [show ((1 : ℚ) / (((728 : ℤ) : ℚ) / DAYS_PER_YEAR) : ℚ) = 1461 / 2912 by
      norm_num [DAYS_PER_YEAR]]
    push_cast
    rw [div_one]
  have hc1 : cagrOf 1 1 (((728 : ℤ) : ℚ) / DAYS_PER_YEAR) = 0 := by
    rw [cagrOf]
    push_cast
    rw [div_one, Real.one_rpow]
    ring
  simp only [hc2, hc1, sub_zero]

/-- C1 counterexample: on a 365-row aligned table whose dates are 2 days
apart (sub-window elapsed days = 728 ≠ 365), the code's 1y outperformance
(year count `365/365.25`) differs from the claim's (year count
`elapsed days/365.25`): the code reports about `100·(2^1461 - 1)` percent
while the claim's formula gives about `100·(2^733 - 1)` percent. -/
theorem claim_C1_counterexample :
    bmOutperf (fun _ => []) fund1y bench1y 365 ≠
      specBmOutperf (fun _ => []) fund1y bench1y 365 := by
  rw [bmOutperf_1y_eval, specBmOutperf_1y_eval]
  intro h
  have h2 := Option.some_inj.mp h
  have hF : ((2 : ℝ) ^ (1460 : ℕ)) ^ ((1461 : ℝ) / 2912) ≤ (2 : ℝ) ^ (733 : ℕ) := by
    rw [← Real.rpow_natCast 2 1460, ← Real.rpow_mul (by norm_num : (0 : ℝ) ≤ 2),
      ← Real.rpow_natCast 2 733]
    apply (Real.rpow_le_rpow_left_iff (by norm_num : (1 : ℝ) < 2)).mpr
    push_cast
    norm_num
  have hb1 := le_round2R (100 * ((2 : ℝ) ^ (1461 : ℕ) - 1))
  have hb2 := round2R_le (100 * (((2 : ℝ) ^ (1460 : ℕ)) ^ ((1461 : ℝ) / 2912) - 1))
  have hpow : (2 : ℝ) ^ (1461 : ℕ) = (2 : ℝ) ^ (728 : ℕ) * (2 : ℝ) ^ (733 : ℕ) := by
    rw [← pow_add]
  have h728 : (2 : ℝ) ≤ (2 : ℝ) ^ (728 : ℕ) := by
    calc (2 : ℝ) = 2 ^ 1 := (pow_one 2).symm
      _ ≤ 2 ^ 728 := pow_le_pow_right₀ (by norm_num) (by norm_num)
  have h733 : (1 : ℝ) ≤ (2 : ℝ) ^ (733 : ℕ) := by
    calc (1 : ℝ) = 1 ^ 733 := by norm_num
      _ ≤ 2 ^ 733 := by apply pow_le_pow_left₀ <;> norm_num
  have hX : 2 * (2 : ℝ) ^ (733 : ℕ) ≤ (2 : ℝ) ^ (1461 : ℕ) := by
    rw [hpow]
    exact mul_le_mul_of_nonneg_right h728 (by positivity)
  rw [← h2] at hb2
  have key : 100 * ((2 : ℝ) ^ (1461 : ℕ) - 1) - 1 ≤
      100 * (((2 : ℝ) ^ (1460 : ℕ)) ^ ((1461 : ℝ) / 2912) - 1) + 1 :=
    le_trans hb1 hb2
  linarith

theorem claim_C1_witness :
    outperfFromTable [(⟨0, 1, 1⟩ : Row), ⟨1, 2, 2⟩] 2 =
      some (round2R (100 *
        (cagrOf ([(⟨0, 1, 1⟩ : Row), ⟨1, 2, 2⟩].drop
            ([(⟨0, 1, 1⟩ : Row), ⟨1, 2, 2⟩].length - 2)).headI.nav_fund
          ([(⟨0, 1, 1⟩ : Row), ⟨1, 2, 2⟩].drop
            ([(⟨0, 1, 1⟩ : Row), ⟨1, 2, 2⟩].length - 2)).getLastI.nav_fund
          (((2 : ℕ) : ℚ) / DAYS_PER_YEAR) -
         cagrOf ([(⟨0, 1, 1⟩ : Row), ⟨1, 2, 2⟩].drop
            ([(⟨0, 1, 1⟩ : Row), ⟨1, 2, 2⟩].length - 2)).headI.nav_bench
          ([(⟨0, 1, 1⟩ : Row), ⟨1, 2, 2⟩].drop
            ([(⟨0, 1, 1⟩ : Row), ⟨1, 2, 2⟩].length - 2)).getLastI.nav_bench
          (((2 : ℕ) : ℚ) / DAYS_PER_YEAR)))) :=
  claim_C1.2.2.1 [⟨0, 1, 1⟩, ⟨1, 2, 2⟩] 2 (by norm_num) (by norm_num)
    (by decide) (by decide)
